import Mathlib

/-!
# BR10 Block Web: `frontend/static/js/main.js`

A shallow embedding of the client-side glue code.  Calls into the browser
(toasts, spinner, `fetch`, `confirm`, DOM writes, timers) are recorded as a
trace of `Effect`s in program order.  The answer of the network to a request
is an input of the model (`FetchResult`), as is the answer of the user to a
`confirm` dialog.

JSON values are modelled by `JsVal`; numbers are restricted to integers (the
counts and identifiers of the API), and the text of an error thrown by the
engine follows V8.  The html of `showPreview` is kept as a template, literal
text and holes, because one of its holes is an arithmetic expression.  jQuery
is no part of the repository: its quick path for `#id` selectors is modelled,
and its answer to any other selector is a parameter.
-/

namespace Br10

/-! ## JavaScript values -/

/-- A JavaScript value as produced by `response.json()`, plus `undefined`
(the value of a missing property) and `NaN` (a value a caller may pass). -/
inductive JsVal where
  | undefined
  | null
  | bool (b : Bool)
  | num (n : Int)
  | nan
  | str (s : String)
  | arr (xs : List JsVal)
  | obj (fields : List (String × JsVal))
  deriving Inhabited

namespace JsVal

/-- ToBoolean: the values that count as true in `if (v)` and `v ? a : b`. -/
def truthy : JsVal → Bool
  | undefined => false
  | null => false
  | bool b => b
  | num n => n != 0
  | nan => false
  | str s => s != ""
  | arr _ => true
  | obj _ => true

mutual
/-- ToString, as applied by a template literal hole. -/
def toStr : JsVal → String
  | undefined => "undefined"
  | null => "null"
  | bool true => "true"
  | bool false => "false"
  | num n => toString n
  | nan => "NaN"
  | str s => s
  | arr xs => joinStr xs
  | obj _ => "[object Object]"
/-- `Array.prototype.join(',')`, which is what ToString of an array is. -/
def joinStr : List JsVal → String
  | [] => ""
  | [x] => elemStr x
  | x :: y :: rest => elemStr x ++ "," ++ joinStr (y :: rest)
/-- The text of one array element inside `join`: nullish elements are empty. -/
def elemStr : JsVal → String
  | undefined => ""
  | null => ""
  | bool true => "true"
  | bool false => "false"
  | num n => toString n
  | nan => "NaN"
  | str s => s
  | arr xs => joinStr xs
  | obj _ => "[object Object]"
end

/-- Strict equality `v === 'literal'` against a string literal. -/
def strictEqStr : JsVal → String → Bool
  | str s, lit => s == lit
  | _, _ => false

/-- The message of the TypeError V8 throws for `v.key` on a nullish `v`. -/
def readError (v : JsVal) (key : String) : String :=
  "Cannot read properties of " ++ toStr v ++ " (reading \'" ++ key ++ "\')"

/-- Property read `v.key`, for the property names this program reads (none
of them is a built-in member of a primitive or of an array): a nullish
receiver throws, a missing property is `undefined`. -/
def get (v : JsVal) (key : String) : Except String JsVal :=
  match v with
  | undefined => .error (readError v key)
  | null => .error (readError v key)
  | obj fields =>
    match fields.find? (fun kv => kv.1 == key) with
    | some kv => .ok kv.2
    | none => .ok undefined
  | _ => .ok undefined

end JsVal

/-! ## Files, requests and effects -/

/-- A `File` of a `FileList`: the fields the program reads. -/
structure File where
  name : String
  type : String
  size : Nat
  deriving DecidableEq, Repr

/-- `String.prototype.includes`: `pat` occurs in `s` as a substring. -/
def includes (s pat : String) : Bool :=
  s.toList.tails.any (fun t => pat.toList.isPrefixOf t)

/-- One piece of a template literal. -/
inductive Piece where
  /-- literal text of the template -/
  | lit (text : String)
  /-- a hole `$\x7bv\x7d`: the text of `v` -/
  | hole (v : JsVal)
  /-- a hole `$\x7ba - b\x7d`: the text of the number `a - b`, which JavaScript
  computes on doubles after converting both operands to numbers -/
  | holeDiff (a b : JsVal)

/-- The value of a template literal: its pieces, in order. -/
abbrev Template := List Piece

/-- The string a template stands for, given the text JavaScript produces for
a difference hole. -/
def Template.text (diffText : JsVal → JsVal → String) : Template → String
  | [] => ""
  | .lit text :: rest => text ++ Template.text diffText rest
  | .hole v :: rest => JsVal.toStr v ++ Template.text diffText rest
  | .holeDiff a b :: rest => diffText a b ++ Template.text diffText rest

/-- `Array.prototype.join('')` on an array of template values. -/
def joinTemplates (items : List Template) : Template :=
  items.foldr (fun item rest => item ++ rest) []

/-- How the network answers one `fetch(...)` followed by `response.json()`. -/
inductive FetchResult where
  /-- the promise of `fetch` rejects with an error of this message -/
  | rejected (message : String)
  /-- `response.json()` rejects with an error of this message -/
  | badJson (message : String)
  /-- the body parses to this value -/
  | json (data : JsVal)

/-- One observable call of the program into the page, in program order. -/
inductive Effect where
  /-- `utils.showToast(message, type)` -/
  | showToast (message type : String)
  /-- `utils.showLoading()` -/
  | showLoading
  /-- `utils.hideLoading()` -/
  | hideLoading
  /-- `fetch(url, \x7bmethod, body\x7d)`; the body is the multipart form, if any -/
  | fetch (method url : String) (body : Option (List (String × File)))
  /-- `confirm(message)` -/
  | confirm (message : String)
  /-- `$(selector).html(content)`; the string passed is the text of the
  template -/
  | html (selector : String) (content : Template)
  /-- `$(selector).append(content)` -/
  | append (selector content : String)
  /-- `setTimeout(() => window.location.reload(), ms)` -/
  | reloadAfter (ms : Nat)
  /-- `new bootstrap.Modal(document.getElementById(id)).show()` -/
  | modalShow (id : String)
  /-- `console.error(label, error)` -/
  | consoleError (label message : String)

namespace Effect

/-- The effect is a network request. -/
def isFetch : Effect → Bool
  | fetch _ _ _ => true
  | _ => false

/-- The effect is a call of `utils.showToast`. -/
def isToast : Effect → Bool
  | showToast _ _ => true
  | _ => false

end Effect

/-- Line 4: `const API_BASE = '/api/v1'`. -/
def API_BASE : String := "/api/v1"

/-! ## `const utils`

`formatFileSize` computes on IEEE doubles.  The model reads the expression
over the rationals: `Math.floor(Math.log(bytes) / Math.log(k))` is the integer
logarithm `Nat.log k bytes`, and division, multiplication and `Math.round`
are exact. -/

namespace utils

/-- `Math.round(x)`: the nearest integer, a tie going up. -/
def mathRound (x : ℚ) : ℤ := ⌊x + 1 / 2⌋

/-- Number to string for a non-negative value with at most two decimals, as
`Math.round(...) / 100` is: no trailing zeros, no point for an integer. -/
def numberToString (x : ℚ) : String :=
  let whole := ⌊x⌋.toNat
  let cents := ⌊x * 100⌋.toNat % 100
  if cents = 0 then toString whole
  else if cents % 10 = 0 then toString whole ++ "." ++ toString (cents / 10)
  else toString whole ++ "." ++ toString (cents / 10) ++ toString (cents % 10)

/-- Line 18: `const sizes`. -/
def formatFileSize.sizes : List String := ["Bytes", "KB", "MB", "GB"]

/-- Line 19: `const i = Math.floor(Math.log(bytes) / Math.log(k))`. -/
def formatFileSize.index (bytes : Nat) : Nat := Nat.log 1024 bytes

/-- Line 20: `Math.round(bytes / Math.pow(k, i) * 100) / 100`. -/
def formatFileSize.value (bytes : Nat) : ℚ :=
  let k : ℚ := 1024
  let i := formatFileSize.index bytes
  (mathRound ((bytes : ℚ) / k ^ i * 100) : ℚ) / 100

/-- Line 20: `sizes[i]` inside a string concatenation; an index past the end
of the array reads `undefined`. -/
def formatFileSize.unit (bytes : Nat) : String :=
  (formatFileSize.sizes[formatFileSize.index bytes]?).getD "undefined"

/-- Lines 15-21: `formatFileSize(bytes)` for a byte count. -/
def formatFileSize (bytes : Nat) : String :=
  if bytes = 0 then "0 Bytes"
  else numberToString (formatFileSize.value bytes) ++ " " ++ formatFileSize.unit bytes

end utils

/-- A block of statements run to its end: the effects it performed, and
either its value or the message of the error it threw. -/
structure Run (α : Type) where
  trace : List Effect
  result : Except String α

namespace Run

/-- Sequencing: a throw in the first part skips the second. -/
def bind {α β : Type} (m : Run α) (f : α → Run β) : Run β :=
  match m.result with
  | .error e => ⟨m.trace, .error e⟩
  | .ok a => ⟨m.trace ++ (f a).trace, (f a).result⟩

instance : Monad Run where
  pure a := ⟨[], .ok a⟩
  bind := bind

/-- Perform one effect. -/
def emit (e : Effect) : Run Unit := ⟨[e], .ok ()⟩

/-- Evaluate an expression that may throw. -/
def eval {α : Type} (x : Except String α) : Run α := ⟨[], x⟩

/-- `try \x7b m \x7d catch (error) \x7b handler(error.message) \x7d`. -/
def tryCatch {α : Type} (m : Run α) (handler : String → Run α) : Run α :=
  match m.result with
  | .ok _ => m
  | .error e => ⟨m.trace ++ (handler e).trace, (handler e).result⟩

end Run

open Run JsVal

/-! ## `class PDFUploader` -/

namespace PDFUploader

/-- Line 179: the arrow function of `.map`, one list item per domain. -/
def previewItem (d : JsVal) : Template :=
  [.lit "<li><code>", .hole d, .lit "</code></li>"]

/-- Line 179: `preview.preview.slice(0, 10).map(...)`, the array of items. -/
def previewItems (list : JsVal) : Except String (List Template) :=
  match list with
  | undefined => .error (readError list "slice")
  | null => .error (readError list "slice")
  | arr xs => .ok ((xs.take 10).map previewItem)
  | str _ => .error "preview.preview.slice(...).map is not a function"
  | _ => .error "preview.preview.slice is not a function"

/-- Line 181: the line below the list, for a truthy `has_more`. -/
def previewMore (total showing : JsVal) : Template :=
  [.lit "<p class=\"text-muted\">... e mais ", .holeDiff total showing, .lit " domínios</p>"]

/-- Lines 168-185: the template literal, with its four holes filled. -/
def previewTemplate (total uniqueTlds : JsVal) (items : List Template) (more : Template) :
    Template :=
  [.lit ("\n            <div class=\"card mt-4\">" ++
      "\n                <div class=\"card-header\">" ++
      "\n                    <h5>Preview dos Domínios Extraídos</h5>" ++
      "\n                </div>" ++
      "\n                <div class=\"card-body\">" ++
      "\n                    <p><strong>Total:</strong> "),
    .hole total,
    .lit (" domínios</p>" ++
      "\n                    <p><strong>TLDs únicos:</strong> "),
    .hole uniqueTlds,
    .lit ("</p>" ++
      "\n                    <div class=\"mt-3\">" ++
      "\n                        <h6>Primeiros domínios:</h6>" ++
      "\n                        <ul class=\"list-unstyled\">" ++
      "\n                            ")] ++
    joinTemplates items ++
    [.lit ("\n                        </ul>" ++
      "\n                        ")] ++
    more ++
    [.lit ("\n                    </div>" ++
      "\n                </div>" ++
      "\n            </div>" ++
      "\n        ")]

/-- Lines 167-188: `showPreview(preview)`. -/
def showPreview (preview : JsVal) : Run Unit := do
  let total ← eval (get preview "total")
  let statistics ← eval (get preview "statistics")
  let uniqueTlds ← eval (get statistics "unique_tlds")
  let items ← eval (previewItems (← eval (get preview "preview")))
  let hasMore ← eval (get preview "has_more")
  let more ← (if hasMore.truthy then
      (do pure (previewMore (← eval (get preview "total")) (← eval (get preview "showing"))))
    else
      pure [])
  emit (.html "#upload-preview" (previewTemplate total uniqueTlds items more))

/-- Lines 139-160: the handler `.then(data => ...)` of `uploadFile`. -/
def uploadFile.onData (data : JsVal) : Run Unit := do
  emit .hideLoading
  if (← eval (get data "success")).truthy then
    emit (.showToast
      ("Upload concluído! " ++ toStr (← eval (get data "domains_added")) ++
        " domínios adicionados, " ++ toStr (← eval (get data "domains_duplicated")) ++
        " duplicados.")
      "success")
    let domainsPreview ← eval (get data "domains_preview")
    (if domainsPreview.truthy then
      (do showPreview (← eval (get data "domains_preview")))
    else
      pure ())
    emit (.reloadAfter 3000)
  else
    emit (.showToast ("Erro: " ++ toStr (← eval (get data "error"))) "error")

/-- Lines 161-164: the handler `.catch(error => ...)` of `uploadFile`. -/
def uploadFile.onError (message : String) : Run Unit := do
  emit .hideLoading
  emit (.showToast ("Erro no upload: " ++ message) "error")

/-- Lines 138-164: the promise chain of `uploadFile` once the request has
settled.  A rejection skips the `.then` handlers; an error thrown inside the
data handler reaches the same `.catch`. -/
def uploadFile.settle (res : FetchResult) : Run Unit :=
  match res with
  | .rejected message => uploadFile.onError message
  | .badJson message => uploadFile.onError message
  | .json data => tryCatch (uploadFile.onData data) uploadFile.onError

/-- Lines 128-165: `uploadFile(file)`, the request and its settlement. -/
def uploadFile (file : File) (res : FetchResult) : List Effect :=
  let formData := [("file", file)]
  [.showLoading, .fetch "POST" (API_BASE ++ "/admin/domains/upload") (some formData)] ++
    (uploadFile.settle res).trace

/-- Lines 108-126: `handleFiles(files)`. -/
def handleFiles (files : List File) (res : FetchResult) : List Effect :=
  match files with
  | [] => []
  | file :: _ =>
    if !includes file.type "pdf" then
      [.showToast "Por favor, selecione um arquivo PDF" "error"]
    else if file.size > 50 * 1024 * 1024 then
      [.showToast "Arquivo muito grande. Máximo: 50MB" "error"]
    else
      uploadFile file res

end PDFUploader

/-! ## `class APIClientManager` -/

namespace APIClientManager

/-- Lines 212-235: the modal that shows the new key. -/
def keyModal (apiKey : JsVal) : String :=
  "\n                    <div class=\"modal fade\" id=\"apiKeyModal\" tabindex=\"-1\">" ++
  "\n                        <div class=\"modal-dialog\">" ++
  "\n                            <div class=\"modal-content\">" ++
  "\n                                <div class=\"modal-header\">" ++
  "\n                                    <h5 class=\"modal-title\">Nova API Key</h5>" ++
  "\n                                    <button type=\"button\" class=\"btn-close\" data-bs-dismiss=\"modal\"></button>" ++
  "\n                                </div>" ++
  "\n                                <div class=\"modal-body\">" ++
  "\n                                    <p class=\"alert alert-warning\">" ++
  "\n                                        <i class=\"fas fa-exclamation-triangle\"></i>" ++
  "\n                                        Copie esta chave agora. Ela não será mostrada novamente!" ++
  "\n                                    </p>" ++
  "\n                                    <div class=\"input-group\">" ++
  "\n                                        <input type=\"text\" class=\"form-control\" id=\"newApiKey\" value=\"" ++
    toStr apiKey ++ "\" readonly>" ++
  "\n                                        <button class=\"btn btn-outline-secondary\" onclick=\"copyApiKey()\">" ++
  "\n                                            <i class=\"fas fa-copy\"></i> Copiar" ++
  "\n                                        </button>" ++
  "\n                                    </div>" ++
  "\n                                </div>" ++
  "\n                            </div>" ++
  "\n                        </div>" ++
  "\n                    </div>" ++
  "\n                "

/-- Lines 205-242: the rest of the `try` block once the body has parsed. -/
def regenerateKey.onData (data : JsVal) : Run Unit := do
  emit .hideLoading
  if (← eval (get data "success")).truthy then
    emit (.showToast "API key regenerada com sucesso!" "success")
    let modal := keyModal (← eval (get data "api_key"))
    emit (.append "body" modal)
    emit (.modalShow "apiKeyModal")
  else
    emit (.showToast ("Erro: " ++ toStr (← eval (get data "error"))) "error")

/-- Lines 243-246: the `catch (error)` block. -/
def regenerateKey.onError (message : String) : Run Unit := do
  emit .hideLoading
  emit (.showToast ("Erro: " ++ message) "error")

/-- Lines 200-246: the `try`/`catch` after the request was sent. -/
def regenerateKey.settle (res : FetchResult) : Run Unit :=
  match res with
  | .rejected message => regenerateKey.onError message
  | .badJson message => regenerateKey.onError message
  | .json data => tryCatch (regenerateKey.onData data) regenerateKey.onError

/-- Lines 193-247: `regenerateKey(clientId)`; `confirmed` is the answer of the
user to the `confirm` dialog. -/
def regenerateKey (clientId : JsVal) (confirmed : Bool) (res : FetchResult) : List Effect :=
  .confirm "Tem certeza que deseja regenerar a API key? A chave antiga será invalidada." ::
    if !confirmed then
      []
    else
      [.showLoading,
        .fetch "POST" (API_BASE ++ "/admin/clients/" ++ toStr clientId ++ "/regenerate-key") none] ++
        (regenerateKey.settle res).trace

end APIClientManager

/-! ## Status badges -/

/-- An element of the page: the attributes the program touches.  An element
without an `id` attribute has the empty id; the elements whose text the
program sets are taken to have no element children. -/
structure Element where
  id : String
  classes : List String
  text : String
  deriving DecidableEq, Repr

namespace Element

/-- jQuery `.removeClass(names)`: every occurrence of each name is dropped. -/
def removeClass (names : List String) (el : Element) : Element :=
  { el with classes := el.classes.filter (fun c => !names.contains c) }

/-- jQuery `.addClass(name)`: the name is appended unless already present. -/
def addClass (name : String) (el : Element) : Element :=
  if el.classes.contains name then el else { el with classes := el.classes ++ [name] }

/-- jQuery `.text(value)`. -/
def setText (value : String) (el : Element) : Element :=
  { el with text := value }

end Element

/-- The elements of the page, in document order. -/
abbrev Dom := List Element

/-- The answer of jQuery to a selector outside its quick path: the positions
of the selected elements, or the message of the syntax error it throws.
jQuery is no part of the repository, so this answer is a parameter. -/
abbrev Engine := Dom → String → Except String (List Nat)

/-- A character of the class `[\w-]`: an ASCII letter or digit, `_` or `-`. -/
def quickChar (c : Char) : Bool :=
  c.isAlphanum || c == '_' || c == '-'

/-- The text consists of characters of `[\w-]` only. -/
def quickText (s : String) : Bool :=
  s.toList.all quickChar

/-- jQuery's quick path, the expression `#([\w-]+)` anchored at both ends:
the id named by a selector that is `#` followed by one or more characters of
`[\w-]`. -/
def quickId (selector : String) : Option String :=
  match selector.toList with
  | '#' :: c :: cs => if (c :: cs).all quickChar then some (String.mk (c :: cs)) else none
  | _ => none

namespace Dom

/-- `document.getElementById(id)`: the position of the first element with
this id. -/
def indexOfId (id : String) : Dom → Option Nat
  | [] => none
  | el :: rest => if el.id == id then some 0 else (indexOfId id rest).map (fun k => k + 1)

/-- Apply a jQuery mutator to the elements at the selected positions, the
first element of the list standing at position `start`. -/
def modifyFrom (selected : List Nat) (f : Element → Element) : Nat → Dom → Dom
  | _, [] => []
  | start, el :: rest =>
    (if selected.contains start then f el else el) :: modifyFrom selected f (start + 1) rest

/-- Apply a jQuery mutator to every selected element. -/
def modify (selected : List Nat) (f : Element → Element) (dom : Dom) : Dom :=
  modifyFrom selected f 0 dom

end Dom

/-- `$(selector)`: the positions of the selected elements.  A selector on
the quick path is resolved with `document.getElementById`; any other goes to
the selector engine, which may throw. -/
def jQuery (engine : Engine) (dom : Dom) (selector : String) : Except String (List Nat) :=
  match quickId selector with
  | some id =>
    match dom.indexOfId id with
    | some k => .ok [k]
    | none => .ok []
  | none => engine dom selector

/-- Line 278: the four colour classes named by `removeClass`. -/
def colourClasses : List String :=
  ["bg-success", "bg-warning", "bg-secondary", "bg-danger"]

/-- Lines 278-288: the update of one badge from `client.status`. -/
def updateBadge (status : JsVal) (badge : Element) : Element :=
  let badge := badge.removeClass colourClasses
  if status.strictEqStr "online" then
    (badge.addClass "bg-success").setText "Online"
  else if status.strictEqStr "syncing" then
    (badge.addClass "bg-warning").setText "Syncing"
  else if status.strictEqStr "error" then
    (badge.addClass "bg-danger").setText "Error"
  else
    (badge.addClass "bg-secondary").setText "Offline"

/-- Lines 275-290: the callback of `forEach` for one client. -/
def refreshClient (engine : Engine) (dom : Dom) (client : JsVal) : Except String Dom := do
  let id ← get client "id"
  let badge ← jQuery engine dom ("#client-" ++ toStr id ++ "-status")
  if badge.length != 0 then
    let status ← get client "status"
    pure (dom.modify badge (updateBadge status))
  else
    pure dom

/-- Line 275: `forEach` over the clients; an error thrown by the callback
stops the loop and keeps the updates made so far. -/
def forEachClient (engine : Engine) : Dom → List JsVal → Dom × Except String Unit
  | dom, [] => (dom, .ok ())
  | dom, client :: rest =>
    match refreshClient engine dom client with
    | .error e => (dom, .error e)
    | .ok dom1 => forEachClient engine dom1 rest

/-- Lines 273-291: the body of the `try` block once the body has parsed. -/
def refreshClientsStatus.onData (engine : Engine) (dom : Dom) (data : JsVal) :
    Dom × Except String Unit :=
  match get data "success" with
  | .error e => (dom, .error e)
  | .ok success =>
    if success.truthy then
      match get data "clients" with
      | .error e => (dom, .error e)
      | .ok (arr clients) => forEachClient engine dom clients
      | .ok undefined => (dom, .error (readError undefined "forEach"))
      | .ok null => (dom, .error (readError null "forEach"))
      | .ok _ => (dom, .error "data.clients.forEach is not a function")
    else
      (dom, .ok ())

/-- Lines 292-294: the `catch (error)` block. -/
def refreshClientsStatus.onError (message : String) : List Effect :=
  [.consoleError "Erro ao atualizar status:" message]

/-- Lines 268-295: `refreshClientsStatus()`: the page after the refresh and
the calls that were made. -/
def refreshClientsStatus (engine : Engine) (dom : Dom) (res : FetchResult) :
    Dom × List Effect :=
  let request := Effect.fetch "GET" (API_BASE ++ "/admin/clients") none
  match res with
  | .rejected message => (dom, request :: refreshClientsStatus.onError message)
  | .badJson message => (dom, request :: refreshClientsStatus.onError message)
  | .json data =>
    match refreshClientsStatus.onData engine dom data with
    | (dom1, .ok ()) => (dom1, [request])
    | (dom1, .error e) => (dom1, request :: refreshClientsStatus.onError e)

/-! ## Vocabulary of the specification -/

/-- The error text of a failed outcome, following the specification: the
message of the error for a rejected request or an unparsable body, the text
of `data.error` for a parsed response whose `success` is falsy (the message
of the TypeError when the response is nullish and `data.success` cannot be
read); `none` for a response whose `success` is truthy. -/
def FetchResult.errorText : FetchResult → Option String
  | .rejected message => some message
  | .badJson message => some message
  | .json data =>
    match get data "success" with
    | .error e => some e
    | .ok success =>
      if success.truthy then none
      else
        match get data "error" with
        | .ok err => some (toStr err)
        | .error e => some e

/-- Round-half-up of `n * 100 / 1024 ^ i`, in whole hundredths, following the
specification. -/
def roundedHundredths (n i : Nat) : Nat :=
  (2 * (n * 100) + 1024 ^ i) / (2 * 1024 ^ i)

/-- A number of hundredths written with at most two decimals, following the
specification: `150` is `1.5`, `105` is `1.05`, `300` is `3`. -/
def twoDecimals (h : Nat) : String :=
  if h % 100 = 0 then toString (h / 100)
  else if h % 10 = 0 then toString (h / 100) ++ "." ++ toString (h % 100 / 10)
  else toString (h / 100) ++ "." ++ toString (h % 100 / 10) ++ toString (h % 10)

/-- The colour class and the label of a status, following the specification:
`online`, `syncing` and `error` have their own, every other value is shown as
offline. -/
def statusBadge : JsVal → String × String
  | .str "online" => ("bg-success", "Online")
  | .str "syncing" => ("bg-warning", "Syncing")
  | .str "error" => ("bg-danger", "Error")
  | _ => ("bg-secondary", "Offline")

/-- The element at position `k` is the one an id selector for `id` selects:
no element before it carries this id. -/
def Dom.firstAt (dom : Dom) (k : Nat) (id : String) : Bool :=
  (dom.take k).all (fun el => el.id != id)

/-- The piece opens a list item: it is the literal text `<li><code>`. -/
def Piece.opensItem : Piece → Bool
  | .lit text => text == "<li><code>"
  | _ => false

/-- The value a plain hole of the template interpolates. -/
def Piece.holeValue : Piece → Option JsVal
  | .hole v => some v
  | _ => none

/-! ## Sample inputs -/

/-- A preview as the upload endpoint returns it, with twelve domains. -/
def samplePreview : JsVal :=
  .obj [("total", .num 25), ("showing", .num 12), ("has_more", .bool true),
    ("statistics", .obj [("unique_tlds", .num 3)]),
    ("preview", .arr [.str "a.com", .str "b.com", .str "c.com", .str "d.com", .str "e.com",
      .str "f.net", .str "g.net", .str "h.net", .str "i.org", .str "j.org", .str "k.org",
      .str "l.org"])]

/-- A page with the badges of two clients. -/
def sampleDom : Dom :=
  [⟨"client-1-status", ["badge", "bg-secondary"], "Offline"⟩,
    ⟨"client-2-status", ["badge", "bg-danger"], "Error"⟩]

/-- A response of the client-list endpoint that names the first client only. -/
def sampleClients : JsVal :=
  .obj [("success", .bool true),
    ("clients", .arr [.obj [("id", .num 1), ("status", .str "online")]])]

/-- A selector engine for the examples.  They consult it on one selector
only, `#client-isp/1-status`, which jQuery rejects as a syntax error. -/
def sampleEngine : Engine :=
  fun _ selector => .error ("Syntax error, unrecognized expression: " ++ selector)

/-! ## Lemmas on traces -/

namespace Run

/-- Every effect of the trace of a block satisfies `P`. -/
def All {α : Type} (P : Effect → Prop) (m : Run α) : Prop :=
  ∀ e ∈ m.trace, P e

theorem bind_eq {α β : Type} (m : Run α) (f : α → Run β) : (m >>= f) = Run.bind m f := rfl

theorem pure_eq {α : Type} (a : α) : (pure a : Run α) = ⟨[], .ok a⟩ := rfl

theorem all_pure {α : Type} (P : Effect → Prop) (a : α) : All P (pure a : Run α) := by
  intro e he
  simp [pure_eq] at he

theorem all_eval {α : Type} (P : Effect → Prop) (x : Except String α) : All P (eval x) := by
  intro e he
  simp [eval] at he

theorem all_emit (P : Effect → Prop) (e : Effect) (h : P e) : All P (emit e) := by
  intro e1 he
  simp [emit] at he
  exact he ▸ h

theorem all_bind {α β : Type} (P : Effect → Prop) (m : Run α) (f : α → Run β)
    (hm : All P m) (hf : ∀ a, All P (f a)) : All P (m >>= f) := by
  intro e he
  rw [bind_eq] at he
  unfold Run.bind at he
  cases hr : m.result with
  | error msg =>
    rw [hr] at he
    exact hm e he
  | ok a =>
    rw [hr] at he
    rcases List.mem_append.mp he with h | h
    · exact hm e h
    · exact hf a e h

theorem all_tryCatch {α : Type} (P : Effect → Prop) (m : Run α) (handler : String → Run α)
    (hm : All P m) (hh : ∀ msg, All P (handler msg)) : All P (tryCatch m handler) := by
  intro e he
  unfold tryCatch at he
  cases hr : m.result with
  | ok a =>
    rw [hr] at he
    exact hm e he
  | error msg =>
    rw [hr] at he
    rcases List.mem_append.mp he with h | h
    · exact hm e h
    · exact hh msg e h

end Run

namespace PDFUploader

theorem showPreview_all (P : Effect → Prop) (hP : ∀ sel content, P (.html sel content))
    (preview : JsVal) : All P (showPreview preview) := by
  unfold showPreview
  refine all_bind P _ _ (all_eval P _) fun total => ?_
  refine all_bind P _ _ (all_eval P _) fun statistics => ?_
  refine all_bind P _ _ (all_eval P _) fun uniqueTlds => ?_
  refine all_bind P _ _ (all_eval P _) fun list => ?_
  refine all_bind P _ _ (all_eval P _) fun items => ?_
  refine all_bind P _ _ (all_eval P _) fun hasMore => ?_
  refine all_bind P _ _ ?_ fun more => all_emit P _ (hP _ _)
  split
  · refine all_bind P _ _ (all_eval P _) fun t => ?_
    exact all_bind P _ _ (all_eval P _) fun sh => all_pure P _
  · exact all_pure P _

theorem uploadFile_onError_trace (message : String) :
    (uploadFile.onError message).trace =
      [.hideLoading, .showToast ("Erro no upload: " ++ message) "error"] := rfl

theorem uploadFile_onData_all (P : Effect → Prop) (hHide : P .hideLoading)
    (hToast : ∀ msg type, P (.showToast msg type)) (hHtml : ∀ sel content, P (.html sel content))
    (hReload : ∀ ms, P (.reloadAfter ms)) (data : JsVal) : All P (uploadFile.onData data) := by
  unfold uploadFile.onData
  refine all_bind P _ _ (all_emit P _ hHide) fun _ => ?_
  refine all_bind P _ _ (all_eval P _) fun success => ?_
  split
  · refine all_bind P _ _ (all_eval P _) fun a => ?_
    refine all_bind P _ _ (all_eval P _) fun d => ?_
    refine all_bind P _ _ (all_emit P _ (hToast _ _)) fun _ => ?_
    refine all_bind P _ _ (all_eval P _) fun dp => ?_
    refine all_bind P _ _ ?_ fun _ => all_emit P _ (hReload _)
    split
    · exact all_bind P _ _ (all_eval P _) fun dp2 => showPreview_all P hHtml _
    · exact all_pure P _
  · exact all_bind P _ _ (all_eval P _) fun err => all_emit P _ (hToast _ _)

theorem uploadFile_settle_all (P : Effect → Prop) (hHide : P .hideLoading)
    (hToast : ∀ msg type, P (.showToast msg type)) (hHtml : ∀ sel content, P (.html sel content))
    (hReload : ∀ ms, P (.reloadAfter ms)) (res : FetchResult) : All P (uploadFile.settle res) := by
  have hErr : ∀ msg, All P (uploadFile.onError msg) := by
    intro msg e he
    rw [uploadFile_onError_trace] at he
    simp at he
    rcases he with h | h
    · exact h ▸ hHide
    · exact h ▸ hToast _ _
  cases res with
  | rejected message => exact hErr message
  | badJson message => exact hErr message
  | json data =>
    exact all_tryCatch P _ _ (uploadFile_onData_all P hHide hToast hHtml hReload data) hErr

theorem uploadFile_settle_noFetch (res : FetchResult) :
    (uploadFile.settle res).trace.filter Effect.isFetch = [] := by
  rw [List.filter_eq_nil_iff]
  intro e he
  have h := uploadFile_settle_all (fun e => e.isFetch = false) rfl (fun _ _ => rfl)
    (fun _ _ => rfl) (fun _ => rfl) res e he
  simp [h]

theorem uploadUrl_eq : API_BASE ++ "/admin/domains/upload" = "/api/v1/admin/domains/upload" := by
  decide

/-- C1: for a non-empty file list whose first file has a type without the
substring `pdf`, `handleFiles` makes exactly one call, the toast
`Por favor, selecione um arquivo PDF` of type `error`; no request is sent,
whatever the size of the file and however the network would answer. -/
theorem handleFiles_rejects_non_pdf (file : File) (rest : List File) (res : FetchResult)
    (hType : includes file.type "pdf" = false) :
    handleFiles (file :: rest) res =
        [.showToast "Por favor, selecione um arquivo PDF" "error"] ∧
      ∀ e ∈ handleFiles (file :: rest) res, e.isFetch = false := by
  have h : handleFiles (file :: rest) res =
      [.showToast "Por favor, selecione um arquivo PDF" "error"] := by
    simp [handleFiles, hType]
  refine ⟨h, ?_⟩
  intro e he
  rw [h] at he
  simp at he
  rw [he]
  rfl

theorem handleFiles_rejects_non_pdf_witness :
    includes "image/png" "pdf" = false ∧
      handleFiles [⟨"logo.png", "image/png", 99999999⟩, ⟨"b.pdf", "application/pdf", 10⟩]
          (.json (.obj [("success", .bool true)])) =
        [.showToast "Por favor, selecione um arquivo PDF" "error"] :=
  ⟨by decide,
    (handleFiles_rejects_non_pdf ⟨"logo.png", "image/png", 99999999⟩
      [⟨"b.pdf", "application/pdf", 10⟩] (.json (.obj [("success", .bool true)]))
      (by decide)).1⟩

/-- C2: the 50MB limit.  For a non-empty file list whose first file has a type
containing `pdf` and a size above 52428800 bytes, `handleFiles` makes exactly
one call, the toast `Arquivo muito grande. Máximo: 50MB` of type `error`, and
sends no request; a file of exactly 52428800 bytes is handed to
`uploadFile`. -/
theorem handleFiles_rejects_oversized (file : File) (rest : List File) (res : FetchResult)
    (hType : includes file.type "pdf" = true) :
    (52428800 < file.size →
        handleFiles (file :: rest) res =
            [.showToast "Arquivo muito grande. Máximo: 50MB" "error"] ∧
          ∀ e ∈ handleFiles (file :: rest) res, e.isFetch = false) ∧
      (file.size = 52428800 → handleFiles (file :: rest) res = uploadFile file res) := by
  constructor
  · intro hSize
    have h : handleFiles (file :: rest) res =
        [.showToast "Arquivo muito grande. Máximo: 50MB" "error"] := by
      have h2 : 50 * 1024 * 1024 < file.size := by omega
      simp [handleFiles, hType, h2]
    refine ⟨h, ?_⟩
    intro e he
    rw [h] at he
    simp at he
    rw [he]
    rfl
  · intro hSize
    simp [handleFiles, hType, hSize]

theorem handleFiles_rejects_oversized_witness :
    includes "application/pdf" "pdf" = true ∧ 52428800 < 52428801 ∧
      handleFiles [⟨"big.pdf", "application/pdf", 52428801⟩] (.rejected "Failed to fetch") =
        [.showToast "Arquivo muito grande. Máximo: 50MB" "error"] :=
  ⟨by decide, by decide,
    ((handleFiles_rejects_oversized ⟨"big.pdf", "application/pdf", 52428801⟩ []
      (.rejected "Failed to fetch") (by decide)).1 (by decide)).1⟩

/-- C3: for a non-empty file list whose first file has a type containing `pdf`
and a size of at most 52428800 bytes, `handleFiles` shows the spinner and
sends one POST to `/api/v1/admin/domains/upload` whose form carries that file
under the name `file`; it shows no toast before the request, every later
effect is made by the handlers of `uploadFile`, the request is the only one,
and the other files of the list play no part. -/
theorem handleFiles_uploads_first_file (file : File) (rest : List File) (res : FetchResult)
    (hType : includes file.type "pdf" = true) (hSize : file.size ≤ 52428800) :
    handleFiles (file :: rest) res =
        [.showLoading, .fetch "POST" "/api/v1/admin/domains/upload" (some [("file", file)])] ++
          (uploadFile.settle res).trace ∧
      (handleFiles (file :: rest) res).filter Effect.isFetch =
        [.fetch "POST" "/api/v1/admin/domains/upload" (some [("file", file)])] ∧
      handleFiles (file :: rest) res = handleFiles [file] res := by
  have h2 : ¬ 50 * 1024 * 1024 < file.size := by omega
  have h : ∀ others : List File, handleFiles (file :: others) res =
      [.showLoading, .fetch "POST" "/api/v1/admin/domains/upload" (some [("file", file)])] ++
        (uploadFile.settle res).trace := by
    intro others
    simp [handleFiles, hType, h2, uploadFile, uploadUrl_eq]
  refine ⟨h rest, ?_, ?_⟩
  · rw [h rest, List.filter_append, uploadFile_settle_noFetch]
    rfl
  · rw [h rest, h []]

theorem handleFiles_uploads_first_file_witness :
    includes "application/pdf" "pdf" = true ∧ 52428800 ≤ 52428800 ∧
      (handleFiles [⟨"a.pdf", "application/pdf", 52428800⟩, ⟨"b.pdf", "application/pdf", 1⟩]
          (.rejected "Failed to fetch")).filter Effect.isFetch =
        [.fetch "POST" "/api/v1/admin/domains/upload"
          (some [("file", ⟨"a.pdf", "application/pdf", 52428800⟩)])] :=
  ⟨by decide, by decide,
    (handleFiles_uploads_first_file ⟨"a.pdf", "application/pdf", 52428800⟩
      [⟨"b.pdf", "application/pdf", 1⟩] (.rejected "Failed to fetch")
      (by decide) (by decide)).2.1⟩

end PDFUploader

namespace APIClientManager

theorem regenerateKey_onError_trace (message : String) :
    (regenerateKey.onError message).trace =
      [.hideLoading, .showToast ("Erro: " ++ message) "error"] := rfl

theorem regenerateKey_onData_all (P : Effect → Prop) (hHide : P .hideLoading)
    (hToast : ∀ msg type, P (.showToast msg type)) (hAppend : ∀ sel content, P (.append sel content))
    (hShow : ∀ id, P (.modalShow id)) (data : JsVal) : All P (regenerateKey.onData data) := by
  unfold regenerateKey.onData
  refine all_bind P _ _ (all_emit P _ hHide) fun _ => ?_
  refine all_bind P _ _ (all_eval P _) fun success => ?_
  split
  · refine all_bind P _ _ (all_emit P _ (hToast _ _)) fun _ => ?_
    refine all_bind P _ _ (all_eval P _) fun key => ?_
    refine all_bind P _ _ (all_emit P _ (hAppend _ _)) fun _ => ?_
    exact all_emit P _ (hShow _)
  · exact all_bind P _ _ (all_eval P _) fun err => all_emit P _ (hToast _ _)

theorem regenerateKey_settle_all (P : Effect → Prop) (hHide : P .hideLoading)
    (hToast : ∀ msg type, P (.showToast msg type)) (hAppend : ∀ sel content, P (.append sel content))
    (hShow : ∀ id, P (.modalShow id)) (res : FetchResult) : All P (regenerateKey.settle res) := by
  have hErr : ∀ msg, All P (regenerateKey.onError msg) := by
    intro msg e he
    rw [regenerateKey_onError_trace] at he
    simp at he
    rcases he with h | h
    · exact h ▸ hHide
    · exact h ▸ hToast _ _
  cases res with
  | rejected message => exact hErr message
  | badJson message => exact hErr message
  | json data =>
    exact all_tryCatch P _ _ (regenerateKey_onData_all P hHide hToast hAppend hShow data) hErr

theorem regenerateKey_settle_noFetch (res : FetchResult) :
    (regenerateKey.settle res).trace.filter Effect.isFetch = [] := by
  rw [List.filter_eq_nil_iff]
  intro e he
  have h := regenerateKey_settle_all (fun e => e.isFetch = false) rfl (fun _ _ => rfl)
    (fun _ _ => rfl) (fun _ => rfl) res e he
  simp [h]

theorem clientsUrl_eq : API_BASE ++ "/admin/clients/" = "/api/v1/admin/clients/" := by
  decide

/-- C4: `regenerateKey` asks first.  When the dialog is declined the only call
made is the `confirm` itself: no request, no spinner, no toast, no modal.
When it is accepted exactly one request is sent, a POST to
`/api/v1/admin/clients/<clientId>/regenerate-key`. -/
theorem regenerateKey_confirmation (clientId : JsVal) (res : FetchResult) :
    regenerateKey clientId false res =
        [.confirm
          "Tem certeza que deseja regenerar a API key? A chave antiga será invalidada."] ∧
      (regenerateKey clientId true res).filter Effect.isFetch =
        [.fetch "POST" ("/api/v1/admin/clients/" ++ toStr clientId ++ "/regenerate-key") none] := by
  constructor
  · simp [regenerateKey]
  · simp only [regenerateKey, clientsUrl_eq, Bool.not_true, Bool.false_eq_true, if_false]
    rw [List.filter_cons, List.filter_append, regenerateKey_settle_noFetch]
    rfl

end APIClientManager

theorem get_ok_of_ok (data : JsVal) (key other : String) (v : JsVal)
    (h : get data key = .ok v) : ∃ w, get data other = .ok w := by
  cases data with
  | undefined => simp [JsVal.get] at h
  | null => simp [JsVal.get] at h
  | obj fields =>
    simp only [JsVal.get]
    cases fields.find? (fun kv => kv.1 == other) with
    | some kv => exact ⟨_, rfl⟩
    | none => exact ⟨_, rfl⟩
  | bool b => exact ⟨_, rfl⟩
  | num n => exact ⟨_, rfl⟩
  | nan => exact ⟨_, rfl⟩
  | str s => exact ⟨_, rfl⟩
  | arr xs => exact ⟨_, rfl⟩

theorem uploadFile_onData_throw (data : JsVal) (e : String)
    (h : get data "success" = .error e) :
    PDFUploader.uploadFile.onData data = ⟨[.hideLoading], .error e⟩ := by
  simp [PDFUploader.uploadFile.onData, bind_eq, Run.bind, eval, emit, h]

theorem uploadFile_onData_falsy (data success err : JsVal)
    (h : get data "success" = .ok success) (hf : success.truthy = false)
    (he : get data "error" = .ok err) :
    PDFUploader.uploadFile.onData data =
      ⟨[.hideLoading, .showToast ("Erro: " ++ toStr err) "error"], .ok ()⟩ := by
  simp [PDFUploader.uploadFile.onData, bind_eq, Run.bind, eval, emit, h, hf, he]

theorem regenerateKey_onData_throw (data : JsVal) (e : String)
    (h : get data "success" = .error e) :
    APIClientManager.regenerateKey.onData data = ⟨[.hideLoading], .error e⟩ := by
  simp [APIClientManager.regenerateKey.onData, bind_eq, Run.bind, eval, emit, h]

theorem regenerateKey_onData_falsy (data success err : JsVal)
    (h : get data "success" = .ok success) (hf : success.truthy = false)
    (he : get data "error" = .ok err) :
    APIClientManager.regenerateKey.onData data =
      ⟨[.hideLoading, .showToast ("Erro: " ++ toStr err) "error"], .ok ()⟩ := by
  simp [APIClientManager.regenerateKey.onData, bind_eq, Run.bind, eval, emit, h, hf, he]

theorem uploadFile_settle_failed (res : FetchResult) (text : String)
    (h : res.errorText = some text) :
    ∃ pre, (PDFUploader.uploadFile.settle res).trace =
          [.hideLoading, .showToast (pre ++ text) "error"] ∨
        (PDFUploader.uploadFile.settle res).trace =
          [.hideLoading, .hideLoading, .showToast (pre ++ text) "error"] := by
  cases res with
  | rejected message =>
    simp only [FetchResult.errorText, Option.some.injEq] at h
    exact ⟨"Erro no upload: ", Or.inl (h ▸ rfl)⟩
  | badJson message =>
    simp only [FetchResult.errorText, Option.some.injEq] at h
    exact ⟨"Erro no upload: ", Or.inl (h ▸ rfl)⟩
  | json data =>
    simp only [FetchResult.errorText] at h
    cases hs : JsVal.get data "success" with
    | error e =>
      rw [hs] at h
      simp only [Option.some.injEq] at h
      refine ⟨"Erro no upload: ", Or.inr ?_⟩
      simp [PDFUploader.uploadFile.settle, Run.tryCatch, uploadFile_onData_throw data e hs,
        PDFUploader.uploadFile_onError_trace, h]
    | ok success =>
      rw [hs] at h
      obtain ⟨err, herr⟩ := get_ok_of_ok data "success" "error" success hs
      rw [herr] at h
      cases ht : success.truthy with
      | true => simp [ht] at h
      | false =>
        simp only [ht, Bool.false_eq_true, if_false, Option.some.injEq] at h
        refine ⟨"Erro: ", Or.inl ?_⟩
        simp [PDFUploader.uploadFile.settle, Run.tryCatch,
          uploadFile_onData_falsy data success err hs ht herr, h]

theorem regenerateKey_settle_failed (res : FetchResult) (text : String)
    (h : res.errorText = some text) :
    ∃ pre, (APIClientManager.regenerateKey.settle res).trace =
          [.hideLoading, .showToast (pre ++ text) "error"] ∨
        (APIClientManager.regenerateKey.settle res).trace =
          [.hideLoading, .hideLoading, .showToast (pre ++ text) "error"] := by
  cases res with
  | rejected message =>
    simp only [FetchResult.errorText, Option.some.injEq] at h
    exact ⟨"Erro: ", Or.inl (h ▸ rfl)⟩
  | badJson message =>
    simp only [FetchResult.errorText, Option.some.injEq] at h
    exact ⟨"Erro: ", Or.inl (h ▸ rfl)⟩
  | json data =>
    simp only [FetchResult.errorText] at h
    cases hs : JsVal.get data "success" with
    | error e =>
      rw [hs] at h
      simp only [Option.some.injEq] at h
      refine ⟨"Erro: ", Or.inr ?_⟩
      simp [APIClientManager.regenerateKey.settle, Run.tryCatch,
        regenerateKey_onData_throw data e hs,
        APIClientManager.regenerateKey_onError_trace, h]
    | ok success =>
      rw [hs] at h
      obtain ⟨err, herr⟩ := get_ok_of_ok data "success" "error" success hs
      rw [herr] at h
      cases ht : success.truthy with
      | true => simp [ht] at h
      | false =>
        simp only [ht, Bool.false_eq_true, if_false, Option.some.injEq] at h
        refine ⟨"Erro: ", Or.inl ?_⟩
        simp [APIClientManager.regenerateKey.settle, Run.tryCatch,
          regenerateKey_onData_falsy data success err hs ht herr, h]

/-- C5: `uploadFile` and `regenerateKey` surface every failure and never
retry.  When the request rejects, the body does not parse, or the parsed
response has a falsy `success` (error text as in `FetchResult.errorText`),
the trace of either function contains `hideLoading`, contains a toast of type
`error` whose message ends with the error text, contains exactly one request,
and in `uploadFile` schedules no page reload. -/
theorem failures_are_surfaced (res : FetchResult) (text : String)
    (h : res.errorText = some text) :
    (∀ file : File,
        Effect.hideLoading ∈ PDFUploader.uploadFile file res ∧
        (∃ pre, Effect.showToast (pre ++ text) "error" ∈ PDFUploader.uploadFile file res) ∧
        ((PDFUploader.uploadFile file res).filter Effect.isFetch).length = 1 ∧
        ∀ ms, Effect.reloadAfter ms ∉ PDFUploader.uploadFile file res) ∧
      (∀ clientId : JsVal,
        Effect.hideLoading ∈ APIClientManager.regenerateKey clientId true res ∧
        (∃ pre, Effect.showToast (pre ++ text) "error" ∈
          APIClientManager.regenerateKey clientId true res) ∧
        ((APIClientManager.regenerateKey clientId true res).filter Effect.isFetch).length = 1) := by
  constructor
  · intro file
    obtain ⟨pre, hp⟩ := uploadFile_settle_failed res text h
    have hf : ((PDFUploader.uploadFile file res).filter Effect.isFetch).length = 1 := by
      simp only [PDFUploader.uploadFile, List.filter_append,
        PDFUploader.uploadFile_settle_noFetch]
      rfl
    refine ⟨?_, ⟨pre, ?_⟩, hf, ?_⟩ <;>
      rcases hp with hp | hp <;> simp [PDFUploader.uploadFile, hp]
  · intro clientId
    obtain ⟨pre, hp⟩ := regenerateKey_settle_failed res text h
    have hf : ((APIClientManager.regenerateKey clientId true res).filter
        Effect.isFetch).length = 1 := by
      simp only [APIClientManager.regenerateKey, Bool.not_true, Bool.false_eq_true, if_false]
      rw [List.filter_cons, List.filter_append, APIClientManager.regenerateKey_settle_noFetch]
      rfl
    refine ⟨?_, ⟨pre, ?_⟩, hf⟩ <;>
      rcases hp with hp | hp <;> simp [APIClientManager.regenerateKey, hp]

theorem failures_are_surfaced_witness :
    (FetchResult.json (.obj [("success", .bool false), ("error", .str "PDF inválido")])).errorText =
        some "PDF inválido" ∧
      Effect.hideLoading ∈ PDFUploader.uploadFile ⟨"a.pdf", "application/pdf", 10⟩
        (.json (.obj [("success", .bool false), ("error", .str "PDF inválido")])) :=
  ⟨by decide,
    ((failures_are_surfaced
      (.json (.obj [("success", .bool false), ("error", .str "PDF inválido")]))
      "PDF inválido" (by decide)).1 ⟨"a.pdf", "application/pdf", 10⟩).1⟩

theorem refreshClientsStatus_trace (engine : Engine) (dom : Dom) (res : FetchResult) :
    (refreshClientsStatus engine dom res).2 = [.fetch "GET" "/api/v1/admin/clients" none] ∨
      ∃ message, (refreshClientsStatus engine dom res).2 =
        [.fetch "GET" "/api/v1/admin/clients" none,
          .consoleError "Erro ao atualizar status:" message] := by
  have hurl : API_BASE ++ "/admin/clients" = "/api/v1/admin/clients" := by decide
  cases res with
  | rejected message =>
    exact Or.inr ⟨message, by simp [refreshClientsStatus, refreshClientsStatus.onError, hurl]⟩
  | badJson message =>
    exact Or.inr ⟨message, by simp [refreshClientsStatus, refreshClientsStatus.onError, hurl]⟩
  | json data =>
    rcases hd : refreshClientsStatus.onData engine dom data with ⟨dom1, r⟩
    cases r with
    | ok u =>
      exact Or.inl (by simp [refreshClientsStatus, hd, hurl])
    | error e =>
      exact Or.inr ⟨e, by simp [refreshClientsStatus, refreshClientsStatus.onError, hd, hurl]⟩

/-- C6, as stated, fails for `refreshClientsStatus`: a rejected request is
only logged to the console, and a response with `success = false` leaves no
trace beyond the request; in neither case is `showToast` called. -/
theorem refreshClientsStatus_shows_no_toast :
    (refreshClientsStatus sampleEngine [] (.rejected "Failed to fetch")).2 =
        [.fetch "GET" "/api/v1/admin/clients" none,
          .consoleError "Erro ao atualizar status:" "Failed to fetch"] ∧
      (refreshClientsStatus sampleEngine [] (.json (.obj [("success", .bool false)]))).2 =
        [.fetch "GET" "/api/v1/admin/clients" none] ∧
      ((refreshClientsStatus sampleEngine [] (.rejected "Failed to fetch")).2.any
        Effect.isToast = false) ∧
      ((refreshClientsStatus sampleEngine [] (.json (.obj [("success", .bool false)]))).2.any
        Effect.isToast = false) :=
  ⟨rfl, rfl, rfl, rfl⟩

/-- C6, amended: in `uploadFile` and `regenerateKey` a rejected request, an
unparsable body and a response with a falsy `success` each lead to a call of
`showToast` with type `error`.  `refreshClientsStatus` never calls
`showToast`: a rejected request is logged with `console.error` and leaves the
page as it was, and a response with a falsy `success` leaves the page as it
was and makes no further call. -/
theorem network_errors_toast_except_refresh :
    (∀ (res : FetchResult) (text : String), res.errorText = some text →
        (∀ file : File, ∃ msg, Effect.showToast msg "error" ∈ PDFUploader.uploadFile file res) ∧
        (∀ clientId : JsVal, ∃ msg,
          Effect.showToast msg "error" ∈ APIClientManager.regenerateKey clientId true res)) ∧
      (∀ (engine : Engine) (dom : Dom) (res : FetchResult),
        ∀ e ∈ (refreshClientsStatus engine dom res).2, e.isToast = false) ∧
      (∀ (engine : Engine) (dom : Dom) (message : String),
        refreshClientsStatus engine dom (.rejected message) =
          (dom, [.fetch "GET" "/api/v1/admin/clients" none,
            .consoleError "Erro ao atualizar status:" message])) ∧
      (∀ (engine : Engine) (dom : Dom) (data success : JsVal),
        JsVal.get data "success" = .ok success → success.truthy = false →
        refreshClientsStatus engine dom (.json data) =
          (dom, [.fetch "GET" "/api/v1/admin/clients" none])) := by
  have hurl : API_BASE ++ "/admin/clients" = "/api/v1/admin/clients" := by decide
  refine ⟨?_, ?_, ?_, ?_⟩
  rotate_left 2
  · intro engine dom message
    simp [refreshClientsStatus, refreshClientsStatus.onError, hurl]
  · intro engine dom data success hS hT
    simp [refreshClientsStatus, refreshClientsStatus.onData, hS, hT, hurl]
  · intro res text h
    constructor
    · intro file
      obtain ⟨pre, hp⟩ := uploadFile_settle_failed res text h
      refine ⟨pre ++ text, ?_⟩
      rcases hp with hp | hp <;> simp [PDFUploader.uploadFile, hp]
    · intro clientId
      obtain ⟨pre, hp⟩ := regenerateKey_settle_failed res text h
      refine ⟨pre ++ text, ?_⟩
      rcases hp with hp | hp <;> simp [APIClientManager.regenerateKey, hp]
  · intro engine dom res e he
    rcases refreshClientsStatus_trace engine dom res with h | ⟨message, h⟩
    · rw [h] at he
      simp at he
      rw [he]
      rfl
    · rw [h] at he
      simp at he
      rcases he with he | he <;> (rw [he]; rfl)

theorem network_errors_toast_except_refresh_witness :
    (FetchResult.rejected "Failed to fetch").errorText = some "Failed to fetch" ∧
      ∃ msg, Effect.showToast msg "error" ∈
        APIClientManager.regenerateKey (.num 7) true (.rejected "Failed to fetch") :=
  ⟨by decide,
    ((network_errors_toast_except_refresh.1 (.rejected "Failed to fetch") "Failed to fetch"
      (by decide)).2 (.num 7))⟩

/-! ## `formatFileSize` -/

namespace utils

theorem mathRound_scaled (n i : Nat) :
    mathRound ((n : ℚ) / (1024 : ℚ) ^ i * 100) = (roundedHundredths n i : ℤ) := by
  unfold mathRound roundedHundredths
  have hpos : (0 : ℚ) < (1024 : ℚ) ^ i := by positivity
  have h : (n : ℚ) / (1024 : ℚ) ^ i * 100 + 1 / 2 =
      ((2 * (n * 100) + 1024 ^ i : ℕ) : ℚ) / ((2 * 1024 ^ i : ℕ) : ℚ) := by
    push_cast
    field_simp
    ring
  rw [h, Rat.floor_natCast_div_natCast]
  exact (Int.natCast_div _ _).symm

theorem numberToString_hundredths (h : Nat) :
    numberToString (((h : ℤ) : ℚ) / 100) = twoDecimals h := by
  have h1 : ⌊(((h : ℤ) : ℚ) / 100)⌋ = ((h / 100 : ℕ) : ℤ) := by
    have := Rat.floor_natCast_div_natCast h 100
    simpa using this
  have h2 : ⌊(((h : ℤ) : ℚ) / 100 * 100)⌋ = (h : ℤ) := by
    have : (((h : ℤ) : ℚ) / 100 * 100) = ((h : ℤ) : ℚ) := by field_simp
    rw [this, Int.floor_intCast]
  unfold numberToString twoDecimals
  simp only [h1, h2, Int.toNat_ofNat]
  have h3 : h % 100 % 10 = h % 10 := by omega
  rw [h3]

theorem formatFileSize_eq (n i : Nat) (h1 : 1024 ^ i ≤ n) (h2 : n < 1024 ^ (i + 1)) :
    formatFileSize n =
      twoDecimals (roundedHundredths n i) ++ " " ++ (formatFileSize.sizes[i]?).getD "undefined" := by
  have hn : n ≠ 0 := by
    have : 0 < 1024 ^ i := by positivity
    omega
  have hi : Nat.log 1024 n = i := Nat.log_eq_of_pow_le_of_lt_pow h1 h2
  simp only [formatFileSize, hn, if_false, formatFileSize.value, formatFileSize.unit,
    formatFileSize.index, hi, mathRound_scaled, numberToString_hundredths]

theorem index_eq (n i : Nat) (h1 : 1024 ^ i ≤ n) (h2 : n < 1024 ^ (i + 1)) :
    formatFileSize.index n = i :=
  Nat.log_eq_of_pow_le_of_lt_pow h1 h2

theorem value_eq (n : Nat) :
    formatFileSize.value n = ((roundedHundredths n (formatFileSize.index n) : ℕ) : ℚ) / 100 := by
  simp only [formatFileSize.value, mathRound_scaled]
  rw [Int.cast_natCast]

theorem roundedHundredths_bounds (n i : Nat) (h1 : 1024 ^ i ≤ n) (h2 : n < 1024 ^ (i + 1)) :
    100 ≤ roundedHundredths n i ∧ roundedHundredths n i ≤ 102400 := by
  have hp : 0 < 1024 ^ i := by positivity
  have h3 : n < 1024 ^ i * 1024 := by rwa [pow_succ] at h2
  unfold roundedHundredths
  constructor
  · rw [Nat.le_div_iff_mul_le (by omega)]
    nlinarith
  · have : (2 * (n * 100) + 1024 ^ i) / (2 * 1024 ^ i) < 102401 := by
      rw [Nat.div_lt_iff_lt_mul (by omega)]
      nlinarith
    omega

/-- C8: `formatFileSize` formats in binary units.  `formatFileSize(0)` is
`0 Bytes`; for `i` in 0..3 and `1024^i <= n < 1024^(i+1)` the result is
`n / 1024^i` rounded half-up to hundredths and written with at most two
decimals, a space, and the `i`-th of `Bytes`, `KB`, `MB`, `GB`; for
`1 <= n < 1024` it is `<n> Bytes`. -/
theorem formatFileSize_binary_units :
    formatFileSize 0 = "0 Bytes" ∧
      (∀ n i : Nat, i < 4 → 1024 ^ i ≤ n → n < 1024 ^ (i + 1) →
        ∃ u, ["Bytes", "KB", "MB", "GB"][i]? = some u ∧
          formatFileSize n = twoDecimals (roundedHundredths n i) ++ " " ++ u) ∧
      (∀ n : Nat, 1 ≤ n → n < 1024 → formatFileSize n = toString n ++ " Bytes") := by
  refine ⟨rfl, ?_, ?_⟩
  · intro n i hi h1 h2
    have h := formatFileSize_eq n i h1 h2
    have hu : ∀ j : Nat, j < 4 → ∃ u, ["Bytes", "KB", "MB", "GB"][j]? = some u ∧
        (formatFileSize.sizes[j]?).getD "undefined" = u := by
      intro j hj
      interval_cases j <;> exact ⟨_, rfl, rfl⟩
    obtain ⟨u, hu1, hu2⟩ := hu i hi
    exact ⟨u, hu1, by rw [h, hu2]⟩
  · intro n h1 h2
    have h := formatFileSize_eq n 0 (by simpa using h1) (by simpa using h2)
    have hr : roundedHundredths n 0 = n * 100 := by
      unfold roundedHundredths
      omega
    have ht : twoDecimals (n * 100) = toString n := by
      unfold twoDecimals
      have e1 : n * 100 % 100 = 0 := by omega
      have e2 : n * 100 / 100 = n := by omega
      simp [e1, e2]
    rw [h, hr, ht, String.append_assoc]
    rfl

theorem formatFileSize_binary_units_witness :
    (1 < 4 ∧ 1024 ^ 1 ≤ 1536 ∧ 1536 < 1024 ^ (1 + 1)) ∧
      ∃ u, ["Bytes", "KB", "MB", "GB"][1]? = some u ∧
        formatFileSize 1536 = twoDecimals (roundedHundredths 1536 1) ++ " " ++ u :=
  ⟨by decide, formatFileSize_binary_units.2.1 1536 1 (by decide) (by decide) (by decide)⟩

/-- C9, as stated, fails twice: at one tebibyte the unit index is 4, past the
end of the four units, and the result reads `1 undefined`; and one byte below
a mebibyte the rounded numeric part is 1024 itself, not below 1024. -/
theorem formatFileSize_not_always_wellFormed :
    formatFileSize.index (1024 ^ 4) = 4 ∧
      formatFileSize (1024 ^ 4) = "1 undefined" ∧
      formatFileSize.value 1048575 = 1024 ∧
      formatFileSize 1048575 = "1024 KB" := by
  have i4 : formatFileSize.index (1024 ^ 4) = 4 := index_eq _ 4 (by decide) (by decide)
  have i1 : formatFileSize.index 1048575 = 1 := index_eq _ 1 (by decide) (by decide)
  refine ⟨i4, ?_, ?_, ?_⟩
  · rw [formatFileSize_eq (1024 ^ 4) 4 (by decide) (by decide)]
    decide
  · rw [value_eq, i1]
    have : roundedHundredths 1048575 1 = 102400 := by decide
    rw [this]
    norm_num
  · rw [formatFileSize_eq 1048575 1 (by decide) (by decide)]
    decide

/-- C9, amended: for every byte count below `1024^4` the unit index is a valid
index into the four units, so the result ends with a space and one of
`Bytes`, `KB`, `MB`, `GB`; and for `1 <= n < 1024^4` the numeric part is at
least 1 and at most 1024. -/
theorem formatFileSize_wellFormed_below_tebibyte (n : Nat) (hn : n < 1024 ^ 4) :
    formatFileSize.index n < 4 ∧
      (∃ numeric u, u ∈ ["Bytes", "KB", "MB", "GB"] ∧ formatFileSize n = numeric ++ " " ++ u) ∧
      (1 ≤ n →
        formatFileSize n =
            numberToString (formatFileSize.value n) ++ " " ++ formatFileSize.unit n ∧
          1 ≤ formatFileSize.value n ∧ formatFileSize.value n ≤ 1024) := by
  have hidx : formatFileSize.index n < 4 := by
    unfold formatFileSize.index
    by_cases h0 : n = 0
    · simp [h0]
    · exact Nat.log_lt_of_lt_pow h0 hn
  refine ⟨hidx, ?_, ?_⟩
  · by_cases h0 : n = 0
    · exact ⟨"0", "Bytes", by simp, by rw [h0]; rfl⟩
    · refine ⟨numberToString (formatFileSize.value n), formatFileSize.unit n, ?_, ?_⟩
      · unfold formatFileSize.unit
        generalize formatFileSize.index n = j at hidx
        interval_cases j <;> simp [formatFileSize.sizes]
      · simp [formatFileSize, h0]
  · intro h1
    have h0 : n ≠ 0 := by omega
    have hlo : 1024 ^ formatFileSize.index n ≤ n := Nat.pow_log_le_self 1024 h0
    have hhi : n < 1024 ^ (formatFileSize.index n + 1) :=
      Nat.lt_pow_succ_log_self (by decide) n
    obtain ⟨b1, b2⟩ := roundedHundredths_bounds n _ hlo hhi
    refine ⟨by simp [formatFileSize, h0], ?_, ?_⟩
    · rw [value_eq, le_div_iff₀ (by norm_num)]
      exact_mod_cast b1
    · rw [value_eq, div_le_iff₀ (by norm_num)]
      exact_mod_cast b2

theorem formatFileSize_wellFormed_below_tebibyte_witness :
    1048575 < 1024 ^ 4 ∧ formatFileSize.index 1048575 < 4 :=
  ⟨by decide, (formatFileSize_wellFormed_below_tebibyte 1048575 (by decide)).1⟩

end utils

/-! ## `showPreview` -/

theorem joinTemplates_items_countP (xs : List JsVal) :
    (joinTemplates (xs.map PDFUploader.previewItem)).countP Piece.opensItem = xs.length := by
  induction xs with
  | nil => rfl
  | cons x rest ih =>
    simp only [List.map_cons, joinTemplates, List.foldr_cons, List.length_cons]
    simp only [joinTemplates] at ih
    rw [List.countP_append, ih]
    simp [PDFUploader.previewItem, List.countP_cons, Piece.opensItem]
    omega

theorem joinTemplates_items_holes (xs : List JsVal) :
    (joinTemplates (xs.map PDFUploader.previewItem)).filterMap Piece.holeValue = xs := by
  induction xs with
  | nil => rfl
  | cons x rest ih =>
    simp only [List.map_cons, joinTemplates, List.foldr_cons]
    simp only [joinTemplates] at ih
    rw [List.filterMap_append, ih]
    simp [PDFUploader.previewItem, List.filterMap_cons, Piece.holeValue]

theorem previewTemplate_countP (total tlds : JsVal) (xs : List JsVal) (more : Template)
    (hm : more.countP Piece.opensItem = 0) :
    (PDFUploader.previewTemplate total tlds (xs.map PDFUploader.previewItem) more).countP
      Piece.opensItem = xs.length := by
  unfold PDFUploader.previewTemplate
  simp only [List.countP_append, joinTemplates_items_countP, hm]
  simp [List.countP_cons, Piece.opensItem]

theorem previewTemplate_holes (total tlds : JsVal) (xs : List JsVal) (more : Template)
    (hm : more.filterMap Piece.holeValue = []) :
    (PDFUploader.previewTemplate total tlds (xs.map PDFUploader.previewItem) more).filterMap
      Piece.holeValue = total :: tlds :: xs := by
  unfold PDFUploader.previewTemplate
  simp only [List.filterMap_append, joinTemplates_items_holes, hm]
  simp [List.filterMap_cons, Piece.holeValue]

/-- C10, as stated, fails for preview objects of another shape: without
`statistics`, or with a `preview` that is a string, `showPreview` throws
before it writes anything, so no list is rendered; after a successful upload
the error ends in the `.catch` handler, which shows an error toast, and the
page reload is not scheduled. -/
theorem showPreview_throws_on_other_shapes :
    PDFUploader.showPreview
        (.obj [("total", .num 1), ("preview", .arr [.str "a.com"]),
          ("has_more", .bool false), ("showing", .num 1)]) =
        ⟨[], .error "Cannot read properties of undefined (reading \'unique_tlds\')"⟩ ∧
      PDFUploader.showPreview
        (.obj [("total", .num 1), ("statistics", .obj [("unique_tlds", .num 1)]),
          ("preview", .str "a.com"), ("has_more", .bool false), ("showing", .num 1)]) =
        ⟨[], .error "preview.preview.slice(...).map is not a function"⟩ ∧
      (PDFUploader.uploadFile.settle
        (.json (.obj [("success", .bool true), ("domains_added", .num 1),
          ("domains_duplicated", .num 0),
          ("domains_preview", .obj [("total", .num 1), ("preview", .arr [.str "a.com"]),
            ("has_more", .bool false), ("showing", .num 1)])]))).trace =
        [.hideLoading,
          .showToast "Upload concluído! 1 domínios adicionados, 0 duplicados." "success",
          .hideLoading,
          .showToast
            "Erro no upload: Cannot read properties of undefined (reading \'unique_tlds\')"
            "error"] :=
  ⟨rfl, rfl, rfl⟩

/-- C10, amended: for a preview whose `statistics` can be read and whose
`preview` is an array, `showPreview` writes into `#upload-preview` the
template of lines 168-185: its list holds one item `<li><code>d</code></li>`
for each of the first `min(10, preview.preview.length)` elements `d` of
`preview.preview`, in order, and the line `... e mais <total - showing>
domínios` stands below the list exactly when `has_more` is truthy.  The
written template has `min(10, preview.preview.length)` item openers, and its
holes are `total`, `unique_tlds` and those first elements in order.  On a
successful upload the handler runs `showPreview` on `domains_preview` when
that value is truthy and skips it otherwise. -/
theorem showPreview_first_ten :
    (∀ (preview total stats tlds hasMore showing : JsVal) (xs : List JsVal),
        JsVal.get preview "total" = .ok total →
        JsVal.get preview "statistics" = .ok stats →
        JsVal.get stats "unique_tlds" = .ok tlds →
        JsVal.get preview "preview" = .ok (.arr xs) →
        JsVal.get preview "has_more" = .ok hasMore →
        JsVal.get preview "showing" = .ok showing →
        ∃ content : Template,
          PDFUploader.showPreview preview = ⟨[.html "#upload-preview" content], .ok ()⟩ ∧
          content =
            [.lit ("\n            <div class=\"card mt-4\">" ++
                "\n                <div class=\"card-header\">" ++
                "\n                    <h5>Preview dos Domínios Extraídos</h5>" ++
                "\n                </div>" ++
                "\n                <div class=\"card-body\">" ++
                "\n                    <p><strong>Total:</strong> "),
              .hole total,
              .lit (" domínios</p>" ++
                "\n                    <p><strong>TLDs únicos:</strong> "),
              .hole tlds,
              .lit ("</p>" ++
                "\n                    <div class=\"mt-3\">" ++
                "\n                        <h6>Primeiros domínios:</h6>" ++
                "\n                        <ul class=\"list-unstyled\">" ++
                "\n                            ")] ++
              joinTemplates ((xs.take 10).map
                (fun d => [.lit "<li><code>", .hole d, .lit "</code></li>"])) ++
              [.lit ("\n                        </ul>" ++
                "\n                        ")] ++
              (if hasMore.truthy then
                [.lit "<p class=\"text-muted\">... e mais ", .holeDiff total showing,
                  .lit " domínios</p>"]
              else []) ++
              [.lit ("\n                    </div>" ++
                "\n                </div>" ++
                "\n            </div>" ++
                "\n        ")] ∧
          content.countP Piece.opensItem = min 10 xs.length ∧
          content.filterMap Piece.holeValue = total :: tlds :: xs.take 10) ∧
      (∀ data success added duplicated domainsPreview : JsVal,
        JsVal.get data "success" = .ok success → success.truthy = true →
        JsVal.get data "domains_added" = .ok added →
        JsVal.get data "domains_duplicated" = .ok duplicated →
        JsVal.get data "domains_preview" = .ok domainsPreview →
        (domainsPreview.truthy = true →
          PDFUploader.uploadFile.onData data =
            Run.bind
              ⟨[.hideLoading,
                  .showToast ("Upload concluído! " ++ toStr added ++ " domínios adicionados, " ++
                    toStr duplicated ++ " duplicados.") "success"], .ok ()⟩
              (fun _ => Run.bind (PDFUploader.showPreview domainsPreview)
                (fun _ => emit (.reloadAfter 3000)))) ∧
        (domainsPreview.truthy = false →
          PDFUploader.uploadFile.onData data =
            ⟨[.hideLoading,
                .showToast ("Upload concluído! " ++ toStr added ++ " domínios adicionados, " ++
                  toStr duplicated ++ " duplicados.") "success",
                .reloadAfter 3000], .ok ()⟩)) := by
  constructor
  · intro preview total stats tlds hasMore showing xs hTotal hStats hTlds hList hMore hShowing
    refine ⟨PDFUploader.previewTemplate total tlds ((xs.take 10).map PDFUploader.previewItem)
      (if hasMore.truthy then PDFUploader.previewMore total showing else []), ?_, ?_, ?_, ?_⟩
    · cases hm : hasMore.truthy <;>
        simp [PDFUploader.showPreview, bind_eq, pure_eq, Run.bind, eval, emit, hTotal, hStats,
          hTlds, hList, hMore, hShowing, hm, PDFUploader.previewItems]
    · cases hm : hasMore.truthy <;> rfl
    · have h := previewTemplate_countP total tlds (xs.take 10)
        (if hasMore.truthy then PDFUploader.previewMore total showing else [])
        (by cases hasMore.truthy <;> rfl)
      rw [h, List.length_take]
    · exact previewTemplate_holes total tlds (xs.take 10)
        (if hasMore.truthy then PDFUploader.previewMore total showing else [])
        (by cases hasMore.truthy <;> rfl)
  · intro data success added duplicated dp hS hT hA hD hP
    constructor
    · intro hdp
      simp [PDFUploader.uploadFile.onData, bind_eq, pure_eq, Run.bind, eval, emit, hS, hT, hA,
        hD, hP, hdp]
    · intro hdp
      simp [PDFUploader.uploadFile.onData, bind_eq, pure_eq, Run.bind, eval, emit, hS, hT, hA,
        hD, hP, hdp]

theorem showPreview_first_ten_witness :
    JsVal.get samplePreview "statistics" = .ok (.obj [("unique_tlds", .num 3)]) ∧
      ∃ content : Template,
        PDFUploader.showPreview samplePreview = ⟨[.html "#upload-preview" content], .ok ()⟩ ∧
        content.countP Piece.opensItem = 10 := by
  obtain ⟨content, h1, _, h3, _⟩ :=
    showPreview_first_ten.1 samplePreview (.num 25) (.obj [("unique_tlds", .num 3)])
      (.num 3) (.bool true) (.num 12) _ rfl rfl rfl rfl rfl rfl
  exact ⟨rfl, content, h1, h3⟩

/-! ## Status badges -/

theorem colour_contains (cls : String) (h : cls ∈ colourClasses) :
    colourClasses.contains cls = true := by
  exact List.elem_iff.mpr h

theorem statusBadge_mem (status : JsVal) : (statusBadge status).1 ∈ colourClasses := by
  unfold statusBadge
  split <;> simp [colourClasses]

theorem updateBadge_key (badge : Element) (cls label : String) (hcls : cls ∈ colourClasses) :
      ((badge.removeClass colourClasses).addClass cls).setText label =
        ⟨badge.id, badge.classes.filter (fun c => !colourClasses.contains c) ++ [cls], label⟩ := by
  have hn : (badge.classes.filter (fun c => !colourClasses.contains c)).contains cls = false := by
    rw [Bool.eq_false_iff]
    intro hc
    have h3 := (List.mem_filter.mp (List.elem_iff.mp hc)).2
    rw [colour_contains cls hcls] at h3
    exact absurd h3 (by decide)
  unfold Element.removeClass Element.addClass Element.setText
  simp only [hn]
  rfl

theorem updateBadge_eq (status : JsVal) (badge : Element) :
    updateBadge status badge =
      ⟨badge.id, badge.classes.filter (fun c => !colourClasses.contains c) ++
        [(statusBadge status).1], (statusBadge status).2⟩ := by
  have hs : "bg-success" ∈ colourClasses := by decide
  have hw : "bg-warning" ∈ colourClasses := by decide
  have hd : "bg-danger" ∈ colourClasses := by decide
  have hc : "bg-secondary" ∈ colourClasses := by decide
  unfold updateBadge
  simp only [updateBadge_key badge _ _ hs, updateBadge_key badge _ _ hw,
    updateBadge_key badge _ _ hd, updateBadge_key badge _ _ hc]
  cases status with
  | str s =>
    by_cases h1 : s = "online"
    · subst h1; rfl
    · by_cases h2 : s = "syncing"
      · subst h2; rfl
      · by_cases h3 : s = "error"
        · subst h3; rfl
        · have e : statusBadge (.str s) = ("bg-secondary", "Offline") := by
            unfold statusBadge
            split <;> simp_all
          simp [JsVal.strictEqStr, h1, h2, h3, e]
  | _ => rfl

theorem updateBadge_id (status : JsVal) (badge : Element) :
    (updateBadge status badge).id = badge.id := by
  rw [updateBadge_eq]

theorem updateBadge_colour (status : JsVal) (badge : Element) :
    (updateBadge status badge).classes.filter (fun c => colourClasses.contains c) =
      [(statusBadge status).1] := by
  rw [updateBadge_eq]
  have h2 := colour_contains _ (statusBadge_mem status)
  have h1 : (badge.classes.filter (fun c => !colourClasses.contains c)).filter
      (fun c => colourClasses.contains c) = [] := by
    rw [List.filter_eq_nil_iff]
    intro c hc
    have h3 := (List.mem_filter.mp hc).2
    intro h4
    rw [h4] at h3
    exact absurd h3 (by decide)
  show (badge.classes.filter (fun c => !colourClasses.contains c) ++
    [(statusBadge status).1]).filter (fun c => colourClasses.contains c) = _
  rw [List.filter_append, h1, List.filter_cons, h2]
  rfl

theorem updateBadge_idem (s1 s2 : JsVal) (badge : Element) :
    updateBadge s2 (updateBadge s1 badge) = updateBadge s2 badge := by
  rw [updateBadge_eq s2 (updateBadge s1 badge), updateBadge_eq s2 badge, updateBadge_eq s1 badge]
  have h2 := colour_contains _ (statusBadge_mem s1)
  have h3 : (badge.classes.filter (fun c => !colourClasses.contains c) ++
      [(statusBadge s1).1]).filter (fun c => !colourClasses.contains c) =
      badge.classes.filter (fun c => !colourClasses.contains c) := by
    rw [List.filter_append, List.filter_filter, List.filter_cons, h2]
    simp
  simp only [h3]

theorem get_ok_of_nonnullish (c : JsVal) (key : String)
    (h : c ≠ .undefined ∧ c ≠ .null) : ∃ v, JsVal.get c key = .ok v := by
  cases c with
  | undefined => exact absurd rfl h.1
  | null => exact absurd rfl h.2
  | obj fields =>
    simp only [JsVal.get]
    cases fields.find? (fun kv => kv.1 == key) with
    | some kv => exact ⟨_, rfl⟩
    | none => exact ⟨_, rfl⟩
  | bool b => exact ⟨_, rfl⟩
  | num n => exact ⟨_, rfl⟩
  | nan => exact ⟨_, rfl⟩
  | str s => exact ⟨_, rfl⟩
  | arr xs => exact ⟨_, rfl⟩

namespace Dom

theorem firstAt_congr (dom1 dom2 : Dom)
    (h : dom1.map (fun e => e.id) = dom2.map (fun e => e.id)) (k : Nat) (id : String) :
    dom1.firstAt k id = dom2.firstAt k id := by
  have key : ∀ (dom : Dom) (j : Nat), dom.firstAt j id =
      ((dom.map (fun e => e.id)).take j).all (fun s => s != id) := by
    intro dom
    induction dom with
    | nil => intro j; simp [firstAt]
    | cons e rest ih =>
      intro j
      cases j with
      | zero => simp [firstAt]
      | succ j =>
        have := ih j
        simp only [firstAt] at this
        simp only [firstAt, List.take_succ_cons, List.all_cons, List.map_cons, this]
  rw [key dom1, key dom2, h]

theorem modifyFrom_getElem? (selected : List Nat) (f : Element → Element) :
    ∀ (dom : Dom) (start j : Nat),
      (modifyFrom selected f start dom)[j]? =
        (dom[j]?).map (fun el => if selected.contains (start + j) then f el else el) := by
  intro dom
  induction dom with
  | nil => intro start j; simp [modifyFrom]
  | cons e rest ih =>
    intro start j
    cases j with
    | zero => simp [modifyFrom]
    | succ j =>
      simp only [modifyFrom, List.getElem?_cons_succ, ih]
      have h : start + 1 + j = start + (j + 1) := by omega
      rw [h]

theorem modify_getElem? (selected : List Nat) (f : Element → Element) (dom : Dom) (j : Nat) :
    (modify selected f dom)[j]? =
      (dom[j]?).map (fun el => if selected.contains j then f el else el) := by
  have h := modifyFrom_getElem? selected f dom 0 j
  simpa [modify] using h

theorem modifyFrom_ids (selected : List Nat) (f : Element → Element)
    (hf : ∀ e, (f e).id = e.id) :
    ∀ (dom : Dom) (start : Nat),
      (modifyFrom selected f start dom).map (fun e => e.id) = dom.map (fun e => e.id) := by
  intro dom
  induction dom with
  | nil => intro start; rfl
  | cons e rest ih =>
    intro start
    simp only [modifyFrom, List.map_cons, ih]
    split
    · rw [hf]
    · rfl

theorem indexOfId_first (id : String) :
    ∀ (dom : Dom) (k : Nat) (el : Element), dom[k]? = some el → el.id = id →
      dom.firstAt k id = true → indexOfId id dom = some k := by
  intro dom
  induction dom with
  | nil => intro k el h; simp at h
  | cons e rest ih =>
    intro k el h hid hfirst
    cases k with
    | zero =>
      simp only [List.getElem?_cons_zero, Option.some.injEq] at h
      subst h
      simp [indexOfId, hid]
    | succ k =>
      simp only [List.getElem?_cons_succ] at h
      simp only [firstAt, List.take_succ_cons, List.all_cons, Bool.and_eq_true] at hfirst
      have hne : (e.id == id) = false := by
        have := hfirst.1
        simpa using this
      simp only [indexOfId, hne, Bool.false_eq_true, if_false]
      rw [ih k el h hid hfirst.2]
      rfl

theorem indexOfId_elem (id : String) :
    ∀ (dom : Dom) (k : Nat), indexOfId id dom = some k →
      ∃ el, dom[k]? = some el ∧ el.id = id := by
  intro dom
  induction dom with
  | nil => intro k h; simp [indexOfId] at h
  | cons e rest ih =>
    intro k h
    by_cases he : e.id = id
    · simp only [indexOfId, he, beq_self_eq_true, if_true, Option.some.injEq] at h
      subst h
      exact ⟨e, by simp, he⟩
    · have hne : (e.id == id) = false := by simpa using he
      simp only [indexOfId, hne, Bool.false_eq_true, if_false, Option.map_eq_some'] at h
      obtain ⟨k0, hk0, hk⟩ := h
      subst hk
      obtain ⟨el, h1, h2⟩ := ih k0 hk0
      exact ⟨el, by simpa using h1, h2⟩

end Dom

theorem quickId_badge (x : String) (hx : quickText x = true) :
    quickId ("#client-" ++ x ++ "-status") = some ("client-" ++ x ++ "-status") := by
  have hl : ("#client-" ++ x ++ "-status").toList =
      '#' :: 'c' :: ("lient-".toList ++ x.toList ++ "-status".toList) := by
    simp [String.toList, String.data_append]
  have hall : ('c' :: ("lient-".toList ++ x.toList ++ "-status".toList)).all quickChar = true := by
    simp only [List.all_cons, List.all_append, Bool.and_eq_true]
    exact ⟨by decide, ⟨by decide, hx⟩, by decide⟩
  have hs : String.mk ('c' :: ("lient-".toList ++ x.toList ++ "-status".toList)) =
      "client-" ++ x ++ "-status" := by
    apply String.ext
    simp [String.toList, String.data_append]
  unfold quickId
  rw [hl]
  simp only [hall, if_true, hs]

theorem refreshClient_quick (engine : Engine) (dom : Dom) (client cid st : JsVal)
    (h1 : JsVal.get client "id" = .ok cid) (h2 : JsVal.get client "status" = .ok st)
    (hq : quickText (toStr cid) = true) :
    ∃ dom1, refreshClient engine dom client = .ok dom1 ∧
      dom1.map (fun e => e.id) = dom.map (fun e => e.id) ∧
      ∀ (k : Nat) (el : Element), dom[k]? = some el →
        (el.id = "client-" ++ toStr cid ++ "-status" →
          dom.firstAt k ("client-" ++ toStr cid ++ "-status") = true →
          dom1[k]? = some (updateBadge st el)) ∧
        (el.id ≠ "client-" ++ toStr cid ++ "-status" → dom1[k]? = some el) := by
  cases hi : dom.indexOfId ("client-" ++ toStr cid ++ "-status") with
  | none =>
    refine ⟨dom, ?_, rfl, ?_⟩
    · unfold refreshClient
      rw [h1]
      simp [jQuery, quickId_badge _ hq, hi, Bind.bind, Except.bind, Pure.pure, Except.pure]
    · intro k el hk
      refine ⟨?_, fun _ => hk⟩
      intro hid hfirst
      rw [Dom.indexOfId_first _ dom k el hk hid hfirst] at hi
      cases hi
  | some k0 =>
    refine ⟨dom.modify [k0] (updateBadge st), ?_, ?_, ?_⟩
    · unfold refreshClient
      rw [h1, h2]
      simp [jQuery, quickId_badge _ hq, hi, Bind.bind, Except.bind, Pure.pure, Except.pure]
    · exact Dom.modifyFrom_ids [k0] _ (updateBadge_id st) dom 0
    · intro k el hk
      constructor
      · intro hid hfirst
        rw [Dom.indexOfId_first _ dom k el hk hid hfirst] at hi
        injection hi with hi
        subst hi
        rw [Dom.modify_getElem?, hk]
        simp
      · intro hne
        obtain ⟨el0, hk0, hid0⟩ := Dom.indexOfId_elem _ dom k0 hi
        have hkk : k ≠ k0 := by
          intro hkk
          subst hkk
          rw [hk] at hk0
          injection hk0 with hk0
          exact hne (hk0 ▸ hid0)
        rw [Dom.modify_getElem?, hk]
        simp [hkk]

theorem refreshClient_ids (engine : Engine) (dom dom1 : Dom) (client : JsVal)
    (hq : ∀ cid, JsVal.get client "id" = .ok cid → quickText (toStr cid) = true)
    (h : refreshClient engine dom client = .ok dom1) :
    dom1.map (fun e => e.id) = dom.map (fun e => e.id) := by
  cases h1 : JsVal.get client "id" with
  | error e =>
    unfold refreshClient at h
    rw [h1] at h
    cases h
  | ok cid =>
    obtain ⟨st, h2⟩ := get_ok_of_ok client "id" "status" cid h1
    obtain ⟨dom2, hr, hids, _⟩ := refreshClient_quick engine dom client cid st h1 h2 (hq cid h1)
    rw [hr] at h
    injection h with h
    exact h ▸ hids

theorem refreshClient_frame (engine : Engine) (dom dom1 : Dom) (client : JsVal) (k : Nat)
    (el : Element)
    (hq : ∀ cid, JsVal.get client "id" = .ok cid → quickText (toStr cid) = true)
    (h : refreshClient engine dom client = .ok dom1) (hk : dom[k]? = some el)
    (hne : ∀ cid, JsVal.get client "id" = .ok cid → "client-" ++ toStr cid ++ "-status" ≠ el.id) :
    dom1[k]? = some el := by
  cases h1 : JsVal.get client "id" with
  | error e =>
    unfold refreshClient at h
    rw [h1] at h
    cases h
  | ok cid =>
    obtain ⟨st, h2⟩ := get_ok_of_ok client "id" "status" cid h1
    obtain ⟨dom2, hr, _, hel⟩ := refreshClient_quick engine dom client cid st h1 h2 (hq cid h1)
    rw [hr] at h
    injection h with h
    subst h
    exact (hel k el hk).2 (fun e => hne cid h1 e.symm)

theorem forEachClient_frame (engine : Engine) :
    ∀ (clients : List JsVal) (dom : Dom) (k : Nat) (el : Element),
      (∀ c ∈ clients, ∀ cid, JsVal.get c "id" = .ok cid → quickText (toStr cid) = true) →
      dom[k]? = some el →
      (∀ c ∈ clients, ∀ cid, JsVal.get c "id" = .ok cid →
        "client-" ++ toStr cid ++ "-status" ≠ el.id) →
      (forEachClient engine dom clients).1[k]? = some el := by
  intro clients
  induction clients with
  | nil => intro dom k el _ hk _; exact hk
  | cons c rest ih =>
    intro dom k el hq hk hne
    unfold forEachClient
    cases hr : refreshClient engine dom c with
    | error e => exact hk
    | ok dom1 =>
      have hk1 := refreshClient_frame engine dom dom1 c k el (hq c (List.mem_cons_self _ _)) hr hk
        (hne c (List.mem_cons_self _ _))
      exact ih dom1 k el (fun c1 hc1 => hq c1 (List.mem_cons_of_mem _ hc1)) hk1
        (fun c1 hc1 => hne c1 (List.mem_cons_of_mem _ hc1))

theorem forEachClient_ok (engine : Engine) :
    ∀ (clients : List JsVal) (dom : Dom),
      (∀ c ∈ clients, c ≠ .undefined ∧ c ≠ .null) →
      (∀ c ∈ clients, ∀ cid, JsVal.get c "id" = .ok cid → quickText (toStr cid) = true) →
      (forEachClient engine dom clients).2 = .ok () := by
  intro clients
  induction clients with
  | nil => intro dom _ _; rfl
  | cons c rest ih =>
    intro dom hnn hq
    obtain ⟨cid, h1⟩ := get_ok_of_nonnullish c "id" (hnn c (List.mem_cons_self _ _))
    obtain ⟨st, h2⟩ := get_ok_of_nonnullish c "status" (hnn c (List.mem_cons_self _ _))
    obtain ⟨dom1, hr, _, _⟩ := refreshClient_quick engine dom c cid st h1 h2
      (hq c (List.mem_cons_self _ _) cid h1)
    unfold forEachClient
    rw [hr]
    exact ih _ (fun c1 hc1 => hnn c1 (List.mem_cons_of_mem _ hc1))
      (fun c1 hc1 => hq c1 (List.mem_cons_of_mem _ hc1))

theorem forEachClient_updated (engine : Engine) :
    ∀ (clients : List JsVal) (dom : Dom) (k : Nat) (el : Element),
      (∀ c ∈ clients, c ≠ .undefined ∧ c ≠ .null) →
      (∀ c ∈ clients, ∀ cid, JsVal.get c "id" = .ok cid → quickText (toStr cid) = true) →
      dom[k]? = some el → dom.firstAt k el.id = true →
      (∃ c ∈ clients, ∃ cid, JsVal.get c "id" = .ok cid ∧
        "client-" ++ toStr cid ++ "-status" = el.id) →
      ∃ c ∈ clients, ∃ cid st, JsVal.get c "id" = .ok cid ∧
        "client-" ++ toStr cid ++ "-status" = el.id ∧
        JsVal.get c "status" = .ok st ∧
        (forEachClient engine dom clients).1[k]? = some (updateBadge st el) := by
  intro clients
  induction clients with
  | nil =>
    intro dom k el _ _ _ _ hex
    obtain ⟨c, hc, _⟩ := hex
    simp at hc
  | cons c rest ih =>
    intro dom k el hnn hq hk hfirst hex
    have hnnRest : ∀ c1 ∈ rest, c1 ≠ .undefined ∧ c1 ≠ .null :=
      fun c1 hc1 => hnn c1 (List.mem_cons_of_mem _ hc1)
    have hqRest : ∀ c1 ∈ rest, ∀ cid1, JsVal.get c1 "id" = .ok cid1 →
        quickText (toStr cid1) = true :=
      fun c1 hc1 => hq c1 (List.mem_cons_of_mem _ hc1)
    obtain ⟨cid, h1⟩ := get_ok_of_nonnullish c "id" (hnn c (List.mem_cons_self _ _))
    obtain ⟨st, h2⟩ := get_ok_of_nonnullish c "status" (hnn c (List.mem_cons_self _ _))
    obtain ⟨dom1, hr, hids, hel⟩ := refreshClient_quick engine dom c cid st h1 h2
      (hq c (List.mem_cons_self _ _) cid h1)
    have hstep : forEachClient engine dom (c :: rest) = forEachClient engine dom1 rest := by
      rw [forEachClient, hr]
    rw [hstep]
    by_cases hm : "client-" ++ toStr cid ++ "-status" = el.id
    · have hk1 : dom1[k]? = some (updateBadge st el) :=
        (hel k el hk).1 hm.symm (hm ▸ hfirst)
      by_cases hrest : ∃ c1 ∈ rest, ∃ cid1, JsVal.get c1 "id" = .ok cid1 ∧
          "client-" ++ toStr cid1 ++ "-status" = el.id
      · have hfirst1 : dom1.firstAt k (updateBadge st el).id = true := by
          rw [updateBadge_id, Dom.firstAt_congr dom1 dom hids]
          exact hfirst
        have hrest1 : ∃ c1 ∈ rest, ∃ cid1, JsVal.get c1 "id" = .ok cid1 ∧
            "client-" ++ toStr cid1 ++ "-status" = (updateBadge st el).id := by
          rw [updateBadge_id]
          exact hrest
        obtain ⟨c1, hc1, cid1, st1, g1, g2, g3, g4⟩ :=
          ih dom1 k (updateBadge st el) hnnRest hqRest hk1 hfirst1 hrest1
        rw [updateBadge_idem] at g4
        rw [updateBadge_id] at g2
        exact ⟨c1, List.mem_cons_of_mem _ hc1, cid1, st1, g1, g2, g3, g4⟩
      · have hne : ∀ c1 ∈ rest, ∀ cid1, JsVal.get c1 "id" = .ok cid1 →
            "client-" ++ toStr cid1 ++ "-status" ≠ (updateBadge st el).id := by
          intro c1 hc1 cid1 g1 g2
          rw [updateBadge_id] at g2
          exact hrest ⟨c1, hc1, cid1, g1, g2⟩
        exact ⟨c, List.mem_cons_self _ _, cid, st, h1, hm, h2,
          forEachClient_frame engine rest dom1 k _ hqRest hk1 hne⟩
    · have hk1 : dom1[k]? = some el := (hel k el hk).2 (fun e => hm e.symm)
      have hfirst1 : dom1.firstAt k el.id = true := by
        rw [Dom.firstAt_congr dom1 dom hids]
        exact hfirst
      have hrest : ∃ c1 ∈ rest, ∃ cid1, JsVal.get c1 "id" = .ok cid1 ∧
          "client-" ++ toStr cid1 ++ "-status" = el.id := by
        obtain ⟨c1, hc1, cid1, g1, g2⟩ := hex
        rcases List.mem_cons.mp hc1 with hc | hc
        · subst hc
          rw [h1] at g1
          injection g1 with g1
          exact absurd (g1 ▸ g2) hm
        · exact ⟨c1, hc, cid1, g1, g2⟩
      obtain ⟨c1, hc1, cid1, st1, g1, g2, g3, g4⟩ :=
        ih dom1 k el hnnRest hqRest hk1 hfirst1 hrest
      exact ⟨c1, List.mem_cons_of_mem _ hc1, cid1, st1, g1, g2, g3, g4⟩

theorem refreshClientsStatus_dom (engine : Engine) (dom : Dom) (data success : JsVal)
    (clients : List JsVal)
    (hS : JsVal.get data "success" = .ok success) (hT : success.truthy = true)
    (hC : JsVal.get data "clients" = .ok (.arr clients)) :
    refreshClientsStatus engine dom (.json data) =
      ((forEachClient engine dom clients).1,
        match (forEachClient engine dom clients).2 with
        | .ok _ => [.fetch "GET" "/api/v1/admin/clients" none]
        | .error e => [.fetch "GET" "/api/v1/admin/clients" none,
            .consoleError "Erro ao atualizar status:" e]) := by
  have hurl : API_BASE ++ "/admin/clients" = "/api/v1/admin/clients" := by decide
  have h : refreshClientsStatus.onData engine dom data = forEachClient engine dom clients := by
    simp [refreshClientsStatus.onData, hS, hT, hC]
  simp only [refreshClientsStatus, h, hurl, refreshClientsStatus.onError]
  rcases forEachClient engine dom clients with ⟨dom1, r⟩
  cases r <;> rfl

/-- C7, as stated, fails for responses with a client the callback cannot
handle.  With a `null` client first, reading `client.id` throws; with a first
client whose id is `isp/1`, jQuery rejects the selector `#client-isp/1-status`.
Either error stops `forEach` and is logged by the `catch` block, so the badge
`#client-1-status` of the client that follows keeps `bg-secondary` and
`Offline` although its status is `online`. -/
theorem refreshClientsStatus_stops_at_bad_client :
    sampleDom[0]? = some ⟨"client-1-status", ["badge", "bg-secondary"], "Offline"⟩ ∧
      refreshClientsStatus sampleEngine sampleDom
          (.json (.obj [("success", .bool true),
            ("clients", .arr [.null, .obj [("id", .num 1), ("status", .str "online")]])])) =
        (sampleDom,
          [.fetch "GET" "/api/v1/admin/clients" none,
            .consoleError "Erro ao atualizar status:"
              "Cannot read properties of null (reading \'id\')"]) ∧
      refreshClientsStatus sampleEngine sampleDom
          (.json (.obj [("success", .bool true),
            ("clients", .arr [.obj [("id", .str "isp/1"), ("status", .str "online")],
              .obj [("id", .num 1), ("status", .str "online")]])])) =
        (sampleDom,
          [.fetch "GET" "/api/v1/admin/clients" none,
            .consoleError "Erro ao atualizar status:"
              "Syntax error, unrecognized expression: #client-isp/1-status"]) :=
  ⟨rfl, rfl, rfl⟩

/-- C7, amended: for a successful response none of whose clients is nullish
and all of whose client ids are written with letters, digits, `_` and `-`
only, `refreshClientsStatus` maps each status to one badge.  Updating a badge
drops the four colour classes and adds one class with its label: `online`
gives `bg-success`/`Online`, `syncing` gives `bg-warning`/`Syncing`, `error`
gives `bg-danger`/`Error`, every other status gives `bg-secondary`/`Offline`.
After the refresh, the first element with the id `client-<id>-status` of some
client of the response is the update of the original element for the status
of such a client and carries exactly one colour class; an element whose id no
client of the response names is unchanged; and nothing is logged.  This holds
whatever jQuery answers to selectors outside its quick path. -/
theorem refreshClientsStatus_badges :
    (statusBadge (.str "online") = ("bg-success", "Online") ∧
        statusBadge (.str "syncing") = ("bg-warning", "Syncing") ∧
        statusBadge (.str "error") = ("bg-danger", "Error") ∧
        ∀ status : JsVal, status.strictEqStr "online" = false →
          status.strictEqStr "syncing" = false → status.strictEqStr "error" = false →
          statusBadge status = ("bg-secondary", "Offline")) ∧
      (∀ (status : JsVal) (badge : Element),
        updateBadge status badge =
          ⟨badge.id,
            badge.classes.filter (fun c =>
              !(List.contains ["bg-success", "bg-warning", "bg-secondary", "bg-danger"] c)) ++
              [(statusBadge status).1],
            (statusBadge status).2⟩) ∧
      (∀ (engine : Engine) (dom : Dom) (data success : JsVal) (clients : List JsVal),
        JsVal.get data "success" = .ok success → success.truthy = true →
        JsVal.get data "clients" = .ok (.arr clients) →
        (∀ c ∈ clients, c ≠ .undefined ∧ c ≠ .null) →
        (∀ c ∈ clients, ∀ cid, JsVal.get c "id" = .ok cid →
          (toStr cid).toList.all (fun ch => ch.isAlphanum || ch == '_' || ch == '-') = true) →
        (∀ (k : Nat) (el : Element), dom[k]? = some el → dom.firstAt k el.id = true →
          (∃ c ∈ clients, ∃ cid, JsVal.get c "id" = .ok cid ∧
            "client-" ++ toStr cid ++ "-status" = el.id) →
          ∃ c ∈ clients, ∃ cid st, JsVal.get c "id" = .ok cid ∧
            "client-" ++ toStr cid ++ "-status" = el.id ∧
            JsVal.get c "status" = .ok st ∧
            (refreshClientsStatus engine dom (.json data)).1[k]? = some (updateBadge st el) ∧
            (updateBadge st el).classes.filter (fun c =>
                ["bg-success", "bg-warning", "bg-secondary", "bg-danger"].contains c) =
              [(statusBadge st).1]) ∧
        (∀ (k : Nat) (el : Element), dom[k]? = some el →
          (∀ c ∈ clients, ∀ cid, JsVal.get c "id" = .ok cid →
            "client-" ++ toStr cid ++ "-status" ≠ el.id) →
          (refreshClientsStatus engine dom (.json data)).1[k]? = some el) ∧
        (refreshClientsStatus engine dom (.json data)).2 =
          [.fetch "GET" "/api/v1/admin/clients" none]) := by
  refine ⟨⟨rfl, rfl, rfl, ?_⟩, updateBadge_eq, ?_⟩
  · intro status h1 h2 h3
    unfold statusBadge
    split <;> simp_all [JsVal.strictEqStr]
  · intro engine dom data success clients hS hT hC hnn hq
    rw [refreshClientsStatus_dom engine dom data success clients hS hT hC]
    refine ⟨?_, ?_, ?_⟩
    · intro k el hk hfirst hex
      obtain ⟨c, hc, cid, st, g1, g2, g3, g4⟩ :=
        forEachClient_updated engine clients dom k el hnn hq hk hfirst hex
      exact ⟨c, hc, cid, st, g1, g2, g3, g4, updateBadge_colour st el⟩
    · intro k el hk hne
      exact forEachClient_frame engine clients dom k el hq hk hne
    · rw [forEachClient_ok engine clients dom hnn hq]

theorem refreshClientsStatus_badges_witness :
    sampleDom[0]? = some ⟨"client-1-status", ["badge", "bg-secondary"], "Offline"⟩ ∧
      (refreshClientsStatus sampleEngine sampleDom (.json sampleClients)).1[0]? =
        some ⟨"client-1-status", ["badge", "bg-success"], "Online"⟩ := by
  have hone : ∀ c ∈ [JsVal.obj [("id", .num 1), ("status", .str "online")]],
      c = JsVal.obj [("id", .num 1), ("status", .str "online")] := by
    intro c hc
    simpa using hc
  obtain ⟨c, hc, cid, st, _, _, g3, g4, _⟩ :=
    (refreshClientsStatus_badges.2.2 sampleEngine sampleDom sampleClients (.bool true)
      [.obj [("id", .num 1), ("status", .str "online")]] rfl rfl rfl
      (by
        intro c hc
        rw [hone c hc]
        exact ⟨by simp, by simp⟩)
      (by
        intro c hc cid hg
        rw [hone c hc] at hg
        have h : JsVal.num 1 = cid := by
          have h2 : JsVal.get (.obj [("id", .num 1), ("status", .str "online")]) "id" =
              .ok (.num 1) := rfl
          rw [h2] at hg
          injection hg
        rw [← h]
        decide)).1 0 _ rfl rfl
      ⟨_, List.mem_singleton.mpr rfl, .num 1, rfl, rfl⟩
  have hst : JsVal.str "online" = st := by
    rw [hone c hc] at g3
    have h2 : JsVal.get (.obj [("id", .num 1), ("status", .str "online")]) "status" =
        .ok (.str "online") := rfl
    rw [h2] at g3
    injection g3
  rw [← hst] at g4
  exact ⟨rfl, g4⟩

end Br10
